import Mathlib

/-!
Verification of the default interactive renderer of the listr2 task runner
(src/renderer/default.renderer.ts).  Strings are modelled as lists of
characters; every character counts as one terminal column.  The external
text primitives (cli-truncate, wrap-ansi, indent-string) are out of scope
for the repository and are modelled as pure functions on character lists,
following their documented interfaces.  JavaScript runtime errors raised
by the renderer are modelled with the Except monad.
-/

/-- Character-list model of a JavaScript string. -/
abbrev Str := List Char

/-- Model of the os EOL constant used by the renderer (a single newline). -/
def eolChar : Char := '\n'

/-- Splits a character list at every newline, as the JavaScript
String.split(EOL) does: the empty string yields one empty part, and a
trailing newline yields a trailing empty part. -/
def splitEOL : Str → List Str
  | [] => [[]]
  | c :: rest =>
    if c = eolChar then [] :: splitEOL rest
    else
      match splitEOL rest with
      | [] => [[c]]
      | h :: t => (c :: h) :: t

/-- Joins parts with a newline between consecutive parts, as the
JavaScript Array.join(EOL) does. -/
def joinEOL : List Str → Str
  | [] => []
  | [l] => l
  | l :: rest => l ++ eolChar :: joinEOL rest

/-- Whitespace test used when modelling the JavaScript String.trim. -/
def isWS (c : Char) : Bool := c.isWhitespace

/-- Model of the JavaScript String.trim: removes leading and trailing
whitespace characters. -/
def trimChars (l : Str) : Str :=
  ((l.dropWhile isWS).reverse.dropWhile isWS).reverse

/-- Fuelled worker for hard chunking of one line at a given width. -/
def chunksOfAux (fuel : Nat) (w : Nat) (l : Str) : List Str :=
  match fuel with
  | 0 => [l]
  | fuel + 1 =>
    if l.length ≤ w then [l]
    else l.take w :: chunksOfAux fuel w (l.drop w)

/-- Hard chunking of one newline-free line into pieces of at most w
characters; a nonpositive width leaves the line unsplit. -/
def chunksOf (w : Nat) (l : Str) : List Str :=
  if w = 0 then [l] else chunksOfAux l.length w l

/-- Modelled from the spec: the external truncate primitive
truncate(s, width) (the cli-truncate package, position end).  A width
below one yields the empty string, width one yields the ellipsis, a
string not exceeding the width is returned unchanged, and a longer
string is cut to width minus one characters plus an ellipsis. -/
def cliTruncate (s : Str) (columns : Int) : Str :=
  if columns < 1 then []
  else if columns = 1 then ['…']
  else if (s.length : Int) ≤ columns then s
  else s.take (columns.toNat - 1) ++ ['…']

/-- Modelled from the spec: the external wrap primitive wrap(s, width)
(the wrap-ansi package with hard wrapping): each newline-separated line
is hard-chunked at the width and the chunks are rejoined with newlines. -/
def cliWrap (s : Str) (columns : Int) : Str :=
  joinEOL ((splitEOL s).flatMap (chunksOf columns.toNat))

/-- Modelled from the spec: the external indent primitive indent(s, n)
(the indent-string package without includeEmptyLines): every line whose
trimmed content is nonempty is prefixed with n spaces. -/
def indentStr (s : Str) (count : Nat) : Str :=
  joinEOL ((splitEOL s).map fun l =>
    if trimChars l = [] then l else List.replicate count ' ' ++ l)

/-- Map with the element index, modelling the index argument of the
JavaScript Array.map callback. -/
def mapWithIndex (f : Nat → α → β) : List α → List β
  | [] => []
  | a :: as => f 0 a :: mapWithIndex (fun i x => f (i + 1) x) as

/-- State of one task, §4.1 of the spec and the predicate methods used by
the renderer (isPending, isCompleted, hasFailed, isSkipped, isRetrying,
isRollingBack, hasRolledBack of the task class). -/
inductive TState where
  | pending
  | completed
  | failed
  | skipped
  | retrying
  | rollingBack
  | rolledBack
deriving DecidableEq

/-- Modelled from the spec: the per-task transient Message record of the
task class (§3 of the spec): output is kept on the task itself, skip
holds the reason string (a boolean true value stored by the task class is
represented by its JavaScript string coercion), error holds the error
text, retry holds the retry count, duration the elapsed time. -/
structure TaskMessage where
  duration : Option Nat := none
  error : Option Str := none
  skip : Option Str := none
  retry : Nat := 0
deriving DecidableEq

/-- Per-task options of the default renderer (rendererTaskOptions): the
static default object carries no initializer in the source, so every
field defaults to undefined. -/
structure RendererTaskOptions where
  bottomBar : Option (Bool ⊕ Int) := none
  persistentOutput : Option Bool := none
  showTimer : Option Bool := none
deriving DecidableEq

/-- Per-task overrides of the global renderer options, read through
getSelfOrParentOption and directly (subtask.rendererOptions.collapse). -/
structure TaskRendererOverrides where
  collapse : Option Bool := none
  collapseSkips : Option Bool := none
  showSkipMessage : Option Bool := none
  suffixSkips : Option Bool := none
  collapseErrors : Option Bool := none
  showErrorMessage : Option Bool := none
  suffixRetries : Option Bool := none
  showSubtasks : Option Bool := none
  showTimer : Option Bool := none
deriving DecidableEq

/-- Modelled from the spec: the fields of one task node read by the
renderer (§3 of the spec; the task class itself is outside the renderer
source).  The output field is the latest output chunk (empty meaning
none), prompt marks an interactive-prompt task, exitOnError is the raw
per-task option (a predicate valued option is represented like true,
since the renderer only compares it against false). -/
structure TaskCore where
  id : Nat
  title : Option Str := none
  state : TState := TState.pending
  output : Str := []
  message : TaskMessage := {}
  rendererOptions : TaskRendererOverrides := {}
  rendererTaskOptions : RendererTaskOptions := {}
  exitOnError : Option Bool := none
  enabled : Bool := true
  prompt : Bool := false
deriving DecidableEq

/-- A task node: its scalar fields and its subtasks. -/
inductive RTask where
  | mk (core : TaskCore) (subtasks : List RTask)

/-- Scalar fields of a task node. -/
def RTask.core : RTask → TaskCore
  | .mk c _ => c

/-- Subtasks of a task node. -/
def RTask.subtasks : RTask → List RTask
  | .mk _ s => s

/-- Task predicate isEnabled. -/
def RTask.isEnabled (t : RTask) : Bool := t.core.enabled

/-- Task predicate hasTitle. -/
def RTask.hasTitle (t : RTask) : Bool := t.core.title.isSome

/-- Title of the task, defaulting to the empty string. -/
def RTask.titleStr (t : RTask) : Str := t.core.title.getD []

/-- Task predicate isPending. -/
def RTask.isPending (t : RTask) : Bool := t.core.state = TState.pending

/-- Task predicate isCompleted. -/
def RTask.isCompleted (t : RTask) : Bool := t.core.state = TState.completed

/-- Task predicate hasFailed. -/
def RTask.hasFailed (t : RTask) : Bool := t.core.state = TState.failed

/-- Task predicate isSkipped. -/
def RTask.isSkipped (t : RTask) : Bool := t.core.state = TState.skipped

/-- Task predicate isRetrying. -/
def RTask.isRetrying (t : RTask) : Bool := t.core.state = TState.retrying

/-- Task predicate isRollingBack. -/
def RTask.isRollingBack (t : RTask) : Bool := t.core.state = TState.rollingBack

/-- Task predicate hasRolledBack. -/
def RTask.hasRolledBack (t : RTask) : Bool := t.core.state = TState.rolledBack

/-- Task predicate hasSubtasks. -/
def RTask.hasSubtasks (t : RTask) : Bool := !t.subtasks.isEmpty

/-- Task predicate isPrompt. -/
def RTask.isPrompt (t : RTask) : Bool := t.core.prompt

/-- Global options and instance state of the default renderer, after the
constructor merged the user options over the static defaults; the field
defaults are the static rendererOptions defaults of the source.
stdoutColumns models process.stdout.columns, with zero standing for a
falsy (absent) column count, and spinner with spinnerPosition model the
spinner animation state. -/
structure Renderer where
  indentation : Nat := 2
  clearOutput : Bool := false
  showSubtasks : Bool := true
  collapse : Bool := true
  collapseSkips : Bool := true
  showSkipMessage : Bool := true
  suffixSkips : Bool := true
  collapseErrors : Bool := true
  showErrorMessage : Bool := true
  suffixRetries : Bool := true
  lazy : Bool := false
  showTimer : Bool := false
  removeEmptyLines : Bool := true
  formatOutput : Str := "truncate".toList
  stdoutColumns : Nat := 80
  spinner : List Str := []
  spinnerPosition : Nat := 0
deriving DecidableEq

/-- Effective terminal column count: process.stdout.columns when truthy,
else 80. -/
def effColumns (r : Renderer) : Nat :=
  if r.stdoutColumns = 0 then 80 else r.stdoutColumns

/-- Resolution of one option through getSelfOrParentOption: the per-task
override when present, else the global option. -/
def optCollapse (r : Renderer) (t : RTask) : Bool :=
  t.core.rendererOptions.collapse.getD r.collapse

/-- Resolved collapseSkips option for a task. -/
def optCollapseSkips (r : Renderer) (t : RTask) : Bool :=
  t.core.rendererOptions.collapseSkips.getD r.collapseSkips

/-- Resolved showSkipMessage option for a task. -/
def optShowSkipMessage (r : Renderer) (t : RTask) : Bool :=
  t.core.rendererOptions.showSkipMessage.getD r.showSkipMessage

/-- Resolved suffixSkips option for a task. -/
def optSuffixSkips (r : Renderer) (t : RTask) : Bool :=
  t.core.rendererOptions.suffixSkips.getD r.suffixSkips

/-- Resolved collapseErrors option for a task. -/
def optCollapseErrors (r : Renderer) (t : RTask) : Bool :=
  t.core.rendererOptions.collapseErrors.getD r.collapseErrors

/-- Resolved showErrorMessage option for a task. -/
def optShowErrorMessage (r : Renderer) (t : RTask) : Bool :=
  t.core.rendererOptions.showErrorMessage.getD r.showErrorMessage

/-- Resolved suffixRetries option for a task. -/
def optSuffixRetries (r : Renderer) (t : RTask) : Bool :=
  t.core.rendererOptions.suffixRetries.getD r.suffixRetries

/-- Resolved showSubtasks option for a task. -/
def optShowSubtasks (r : Renderer) (t : RTask) : Bool :=
  t.core.rendererOptions.showSubtasks.getD r.showSubtasks

/-- Resolved global showTimer option for a task. -/
def optShowTimer (r : Renderer) (t : RTask) : Bool :=
  t.core.rendererOptions.showTimer.getD r.showTimer

/-- isBottomBar of the renderer: the bottomBar task option is a nonzero
number or the boolean true. -/
def isBottomBar (t : RTask) : Bool :=
  match t.core.rendererTaskOptions.bottomBar with
  | some (Sum.inr n) => n ≠ 0
  | some (Sum.inl b) => b ≠ false
  | none => false

/-- hasPersistentOutput of the renderer. -/
def hasPersistentOutput (t : RTask) : Bool :=
  t.core.rendererTaskOptions.persistentOutput = some true

/-- hasTimer of the renderer. -/
def hasTimer (t : RTask) : Bool :=
  t.core.rendererTaskOptions.showTimer = some true

/-- JavaScript truthiness of an optional string value: present and
nonempty. -/
def jsTruthy (o : Option Str) : Bool :=
  match o with
  | some s => !s.isEmpty
  | none => false

/-- Renderer helper indentMultilineOutput: trims every line and indents
the continuation lines (index above zero) by two spaces. -/
def indentMultilineOutput (s : Str) (i : Nat) : Str :=
  if 0 < i then indentStr (trimChars s) 2 else trimChars s

/-- formatString of the default renderer: drops blank input, prefixes
the icon, computes the available width from the terminal columns minus
the indentation of the level minus two, then truncates every line or
hard-wraps the whole text depending on the formatOutput option (an
unknown value raises an error), optionally removes empty lines, and
indents the result by the level. -/
def formatString (r : Renderer) (str icon : Str) (level : Int) : Except Str (Option Str) :=
  if trimChars str = [] then Except.ok none
  else
    let str2 := icon ++ [' '] ++ str
    let columns : Int := (effColumns r : Int) - level * (r.indentation : Int) - 2
    match
      (if r.formatOutput = "truncate".toList then
        Except.ok (mapWithIndex (fun i s => cliTruncate (indentMultilineOutput s i) columns) (splitEOL str2))
      else if r.formatOutput = "wrap".toList then
        Except.ok (mapWithIndex (fun i s => indentMultilineOutput s i) (splitEOL (cliWrap str2 columns)))
      else Except.error "Format option for the renderer is wrong.".toList : Except Str (List Str))
    with
    | Except.error e => Except.error e
    | Except.ok parsed =>
      let parsed2 := if r.removeEmptyLines then parsed.filter (fun s => !s.isEmpty) else parsed
      Except.ok (some (indentStr (joinEOL parsed2) (level * (r.indentation : Int)).toNat))

/-- Current spinner frame of the renderer. -/
def spinnerFrame (r : Renderer) : Str :=
  (r.spinner.get? r.spinnerPosition).getD []

/-- getSymbol of the default renderer, with the color decorations of
chalk taken as identity; the figures glyphs appear literally. -/
def getSymbol (r : Renderer) (t : RTask) (data : Bool) : Str :=
  if t.isPending && !data then
    if r.lazy || (optShowSubtasks r t && t.hasSubtasks && !(t.subtasks.all fun s => !s.hasTitle))
    then "❯".toList else spinnerFrame r
  else if t.isCompleted && !data then
    if t.hasSubtasks && (t.subtasks.any fun s => s.hasFailed) then "⚠".toList else "✔".toList
  else if t.isRetrying && !data then
    if r.lazy then "⚠".toList else spinnerFrame r
  else if t.isRollingBack && !data then
    if r.lazy then "⚠".toList else spinnerFrame r
  else if t.hasRolledBack && !data then "←".toList
  else if t.hasFailed && !data then
    if t.hasSubtasks then "❯".toList else "✖".toList
  else if t.isSkipped && !data && optCollapseSkips r t == false then "⚠".toList
  else if t.isSkipped && (data || optCollapseSkips r t) then "↓".toList
  else if !data then "◼".toList
  else "›".toList

/-- addSuffixToMessage of the default renderer: appends the bracketed
suffix unless the condition is explicitly false (an absent condition
counts as true). -/
def addSuffixToMessage (message : Str) (suffix : Str) (condition : Option Bool) : Str :=
  if condition.getD true then message ++ " [".toList ++ suffix ++ "]".toList else message

/-- Modelled from the spec: the external parse-time utility used only
for the completed-with-timer title; the exact text is irrelevant to the
renderer logic. -/
def parseTaskTime (duration : Option Nat) : Str :=
  (toString (duration.getD 0)).toList ++ "ms".toList

/-- getTaskTime of the default renderer. -/
def getTaskTime (t : RTask) : Str :=
  "[".toList ++ parseTaskTime t.core.message.duration ++ "]".toList

/-- Data source selector of dumpData. -/
inductive DumpSource where
  | output
  | skip
  | error
deriving DecidableEq

/-- dumpData of the default renderer: picks the data for the source,
returns nothing when an error text merely repeats the title of the task,
and otherwise formats the data one level deeper with the data symbol. -/
def dumpData (r : Renderer) (t : RTask) (level : Int) (source : DumpSource) : Except Str (Option Str) :=
  let data : Option Str :=
    match source with
    | DumpSource.output => some t.core.output
    | DumpSource.skip => t.core.message.skip
    | DumpSource.error => t.core.message.error
  if t.hasTitle ∧ source = DumpSource.error ∧ data = t.core.title then Except.ok none
  else
    match data with
    | some s => formatString r s (getSymbol r t true) (level + 1)
    | none => Except.ok none

/-- One bottom bar entry: the retained rendered lines (undefined entries
included, as in the source) and the stored item budget. -/
structure BBEntry where
  data : List (Option Str) := []
  items : Option Int := none
deriving DecidableEq

/-- Mutable region state of the renderer: the prompt bar and the bottom
bar map keyed by task id, in insertion order. -/
structure RState where
  promptBar : Option Str := none
  bottomBar : List (Nat × BBEntry) := []
deriving DecidableEq

/-- Lookup of a bottom bar entry by task id. -/
def lookupBB : List (Nat × BBEntry) → Nat → Option BBEntry
  | [], _ => none
  | (k, e) :: rest, id => if k = id then some e else lookupBB rest id

/-- Replace the data lines of the entry of one task id. -/
def setBBData : List (Nat × BBEntry) → Nat → List (Option Str) → List (Nat × BBEntry)
  | [], _, _ => []
  | (k, e) :: rest, id, d =>
    if k = id then (k, { e with data := d }) :: rest
    else (k, e) :: setBBData rest id d

/-- Delete the entry of one task id (the JavaScript delete operator on
the bottom bar object). -/
def eraseBB : List (Nat × BBEntry) → Nat → List (Nat × BBEntry)
  | [], _ => []
  | (k, e) :: rest, id =>
    if k = id then eraseBB rest id else (k, e) :: eraseBB rest id

/-- Item budget stored when the bottom bar entry of a task is created:
one for a boolean bottomBar option, the number itself for a numeric one,
undefined when the option is absent. -/
def bottomBarItems (t : RTask) : Option Int :=
  match t.core.rendererTaskOptions.bottomBar with
  | some (Sum.inl _) => some 1
  | some (Sum.inr n) => some n
  | none => none

/-- Model of the JavaScript data.slice(-items) with items possibly
undefined: an absent count or a zero count keeps everything, a positive
count keeps the last items elements, and a negative count drops the
first elements. -/
def jsSliceNegArg (data : List (Option Str)) (items : Option Int) : List (Option Str) :=
  match items with
  | none => data
  | some n =>
    if 0 < n then data.drop (data.length - n.toNat)
    else if n < 0 then data.drop (-n).toNat
    else data

/-- Condition under which the renderer shows the stopped marker instead
of the title line: some sibling has failed, the task itself has not, its
raw exitOnError option is not false, and it is neither completed nor
skipped. -/
def stoppedBySibling (siblings : List RTask) (t : RTask) : Bool :=
  (siblings.any fun s => s.hasFailed) && !t.hasFailed &&
    !(t.core.exitOnError == some false) && !(t.isCompleted || t.isSkipped)

/-- Title line selection of multiLineRenderer (the hasTitle branch):
collapsed error text, collapsed skip text with suffix, retry suffix,
completed title with timer, plain title, or the stopped marker when a
sibling failure stopped the task. -/
def titleSelect (r : Renderer) (siblings : List RTask) (t : RTask) (level : Int) : Except Str (Option Str) :=
  if !(stoppedBySibling siblings t) then
    if t.hasFailed && optCollapseErrors r t then
      formatString r
        (if !t.hasSubtasks && jsTruthy t.core.message.error && optShowErrorMessage r t
         then t.core.message.error.getD [] else t.titleStr)
        (getSymbol r t false) level
    else if t.isSkipped && optCollapseSkips r t then
      formatString r
        (addSuffixToMessage
          (if jsTruthy t.core.message.skip && optShowSkipMessage r t
           then t.core.message.skip.getD [] else t.titleStr)
          "SKIPPED".toList (some (optSuffixSkips r t)))
        (getSymbol r t false) level
    else if t.isRetrying && optSuffixRetries r t then
      formatString r
        (addSuffixToMessage t.titleStr
          ("RETRYING-".toList ++ (toString t.core.message.retry).toList) none)
        (getSymbol r t false) level
    else if t.isCompleted && t.hasTitle && (optShowTimer r t || hasTimer t) then
      formatString r (t.titleStr ++ [' '] ++ getTaskTime t) (getSymbol r t false) level
    else
      formatString r t.titleStr (getSymbol r t false) level
  else
    formatString r t.titleStr "◼".toList level

/-- Secondary error or skip line of multiLineRenderer (the block after
the title): emitted only without subtasks taking over that duty and with
the respective collapse option explicitly false. -/
def dumpBlock (r : Renderer) (t : RTask) (level : Int) : Except Str (List (Option Str)) :=
  if !t.hasSubtasks || !(optShowSubtasks r t) then
    if t.hasFailed && optCollapseErrors r t == false &&
        (optShowErrorMessage r t || !(optShowSubtasks r t)) then
      match dumpData r t level DumpSource.error with
      | Except.error e => Except.error e
      | Except.ok d => Except.ok [d]
    else if t.isSkipped && optCollapseSkips r t == false &&
        (optShowSkipMessage r t || !(optShowSubtasks r t)) then
      match dumpData r t level DumpSource.skip with
      | Except.error e => Except.error e
      | Except.ok d => Except.ok [d]
    else Except.ok []
  else Except.ok []

/-- Live output routing of multiLineRenderer (the task output block):
prompt bar for an active prompt task, bottom bar for a bottom bar task
or an anonymous task (with creation of the entry, the duplicate check
and the skipped-state check), else an inline line while the task is
active or has persistent output. -/
def outputPart (r : Renderer) (t : RTask) (level : Int) (st : RState) : Except Str (RState × List (Option Str)) :=
  if !t.core.output.isEmpty then
    if (t.isPending || t.isRetrying || t.isRollingBack) && t.isPrompt then
      Except.ok ({ st with promptBar := some t.core.output }, [])
    else if isBottomBar t || !t.hasTitle then
      match dumpData r t (-1) DumpSource.output with
      | Except.error e => Except.error e
      | Except.ok d =>
        let data : List (Option Str) := [d]
        let bb :=
          if (lookupBB st.bottomBar t.core.id).isNone then
            st.bottomBar ++ [(t.core.id, { data := [], items := bottomBarItems t })]
          else st.bottomBar
        let entry := (lookupBB bb t.core.id).getD {}
        if !(entry.data.any fun el => data.contains el) && !t.isSkipped then
          Except.ok ({ st with bottomBar := setBBData bb t.core.id (entry.data ++ data) }, [])
        else
          Except.ok ({ st with bottomBar := bb }, [])
    else if t.isPending || t.isRetrying || t.isRollingBack || hasPersistentOutput t then
      match dumpData r t level DumpSource.output with
      | Except.error e => Except.error e
      | Except.ok d => Except.ok (st, [d])
    else Except.ok (st, [])
  else Except.ok (st, [])

/-- Guard of the subtask recursion of multiLineRenderer. -/
def shouldRenderSubtasks (r : Renderer) (t : RTask) : Bool :=
  optShowSubtasks r t && t.hasSubtasks &&
    (t.isPending || t.hasFailed ||
      (t.isCompleted && !t.hasTitle) ||
      (t.isCompleted && optCollapse r t == false &&
        !(t.subtasks.any fun s => s.core.rendererOptions.collapse == some true)) ||
      (t.subtasks.any fun s => s.core.rendererOptions.collapse == some false) ||
      (t.subtasks.any fun s => s.hasFailed) ||
      (t.subtasks.any fun s => s.hasRolledBack))

/-- Level used for the subtask recursion: unchanged for an anonymous
task, one deeper for a titled task. -/
def subtaskRenderLevel (t : RTask) (level : Int) : Int :=
  if !t.hasTitle then level else level + 1

/-- Settling test of the after-task actions: completed, failed, skipped
or rolled back. -/
def isSettled (t : RTask) : Bool :=
  t.isCompleted || t.hasFailed || t.isSkipped || t.hasRolledBack

/-- After-task actions of multiLineRenderer once a task settled: the
prompt bar is cleared and, without persistent output, the bottom bar
entry of the task is deleted. -/
def settleActions (t : RTask) (st : RState) : RState :=
  { promptBar := none,
    bottomBar :=
      if !(hasPersistentOutput t) then eraseBB st.bottomBar t.core.id
      else st.bottomBar }

mutual

/-- Loop body of multiLineRenderer over the sibling list: processes the
remaining tasks in order, threading the region state and collecting the
output elements (possibly undefined ones included). -/
def renderLoop (r : Renderer) (siblings : List RTask) (rem : List RTask) (level : Int) (st : RState) : Except Str (List (Option Str) × RState) :=
  match rem with
  | [] => Except.ok ([], st)
  | t :: rest =>
    match renderTaskEntry r siblings t level st with
    | Except.error e => Except.error e
    | Except.ok (elems, st1) =>
      match renderLoop r siblings rest level st1 with
      | Except.error e => Except.error e
      | Except.ok (elems2, st2) => Except.ok (elems ++ elems2, st2)
termination_by sizeOf rem

/-- Processing of one enabled task inside multiLineRenderer: title line,
secondary error or skip line, output routing, subtask recursion, and the
after-task settle actions, in source order. -/
def renderTaskEntry (r : Renderer) (siblings : List RTask) (t : RTask) (level : Int) (st : RState) : Except Str (List (Option Str) × RState) :=
  if !t.isEnabled then Except.ok ([], st)
  else
    match (if t.hasTitle then Except.map (fun l => [l]) (titleSelect r siblings t level) else Except.ok []) with
    | Except.error e => Except.error e
    | Except.ok titleElems =>
      match dumpBlock r t level with
      | Except.error e => Except.error e
      | Except.ok dumpElems =>
        match outputPart r t level st with
        | Except.error e => Except.error e
        | Except.ok (st1, outElems) =>
          match
            (if shouldRenderSubtasks r t then
              match multiLineRenderer r t.subtasks (subtaskRenderLevel t level) st1 with
              | Except.error e => Except.error e
              | Except.ok (subR, st2) =>
                let push :=
                  (match subR with
                   | some s => !(trimChars s).isEmpty
                   | none => true) &&
                  !(t.subtasks.all fun s => !s.hasTitle)
                Except.ok ((if push then [subR] else []), st2)
            else Except.ok ([], st1) : Except Str (List (Option Str) × RState))
          with
          | Except.error e => Except.error e
          | Except.ok (subElems, st2) =>
            let st3 := if isSettled t then settleActions t st2 else st2
            Except.ok (titleElems ++ dumpElems ++ outElems ++ subElems, st3)
termination_by sizeOf t
decreasing_by
  cases t with
  | mk c s =>
    simp only [RTask.subtasks, RTask.mk.sizeOf_spec]
    cases c
    simp
    omega

/-- multiLineRenderer of the default renderer: renders a sibling list at
one level, filters falsy elements, and joins with newlines (returning
nothing when no element remains). -/
def multiLineRenderer (r : Renderer) (tasks : List RTask) (level : Int) (st : RState) : Except Str (Option Str × RState) :=
  match renderLoop r tasks tasks level st with
  | Except.error e => Except.error e
  | Except.ok (elems, st1) =>
    let filtered := (elems.filterMap id).filter fun s => !s.isEmpty
    Except.ok ((if 0 < filtered.length then some (joinEOL filtered) else none), st1)
termination_by sizeOf tasks + 1

end

/-- renderBottomBar of the default renderer: with a nonempty bottom bar
map, trims every entry to its item budget in place, then joins all
retained truthy lines; an empty map yields nothing and leaves the state
unchanged. -/
def renderBottomBar (st : RState) : Option Str × RState :=
  if st.bottomBar.isEmpty then (none, st)
  else
    let sliced := st.bottomBar.map fun ke => (ke.1, { ke.2 with data := jsSliceNegArg ke.2.data ke.2.items })
    let flat := (sliced.map fun ke => ke.2.data).flatten
    (some (joinEOL ((flat.filterMap id).filter fun s => !s.isEmpty)), { st with bottomBar := sliced })

/-- renderPrompt of the default renderer: the prompt bar when truthy. -/
def renderPrompt (st : RState) : Option Str :=
  match st.promptBar with
  | some p => if p.isEmpty then none else some p
  | none => none

/-- JavaScript optional chaining check render?.trim().length > 0. -/
def optTrimNonempty (o : Option Str) : Bool :=
  match o with
  | some s => !(trimChars s).isEmpty
  | none => false

/-- createRender of the default renderer: one full render pass, with the
three section switches defaulting to true; the task tree is rendered
first, then the bottom bar is trimmed and rendered, then the prompt,
and the nonempty sections are joined with newlines. -/
def createRender (r : Renderer) (showTasks showBottomBar showPrompt : Bool) (tasks : List RTask) (st : RState) : Except Str (Str × RState) :=
  match multiLineRenderer r tasks 0 st with
  | Except.error e => Except.error e
  | Except.ok (renderTasks, st1) =>
    let bb := renderBottomBar st1
    let pr := renderPrompt bb.2
    let render0 : List Str := []
    let render1 :=
      if showTasks && optTrimNonempty renderTasks then render0 ++ [renderTasks.getD []]
      else render0
    let render2 :=
      if showBottomBar && optTrimNonempty bb.1 then
        render1 ++ [(if 0 < render1.length then [eolChar] else []) ++ bb.1.getD []]
      else render1
    let render3 :=
      if showPrompt && optTrimNonempty pr then
        render2 ++ [(if 0 < render2.length then [eolChar] else []) ++ pr.getD []]
      else render2
    Except.ok ((if 0 < render3.length then joinEOL render3 else []), bb.2)

/-- Active states of a task for output routing: pending, retrying or
rolling back. -/
def activeState (t : RTask) : Bool :=
  t.isPending || t.isRetrying || t.isRollingBack

/-- The subtask recursion condition exactly as the specification words
it: showSubtasks enabled, subtasks present, and the task pending, failed
or completed-without-title, or some subtask explicitly non-collapsed,
failed or rolled back. -/
def claimSubtaskCondition (r : Renderer) (t : RTask) : Bool :=
  optShowSubtasks r t && t.hasSubtasks &&
    (t.isPending || t.hasFailed || (t.isCompleted && !t.hasTitle) ||
      (t.subtasks.any fun s => s.core.rendererOptions.collapse == some false) ||
      (t.subtasks.any fun s => s.hasFailed) ||
      (t.subtasks.any fun s => s.hasRolledBack))

/-- The subtask recursion condition of the specification amended with
the branch the source also accepts: a completed task whose resolved
collapse option is false while no subtask explicitly opts into
collapsing. -/
def claimSubtaskConditionAmended (r : Renderer) (t : RTask) : Bool :=
  claimSubtaskCondition r t ||
    (optShowSubtasks r t && t.hasSubtasks && t.isCompleted &&
      optCollapse r t == false &&
      !(t.subtasks.any fun s => s.core.rendererOptions.collapse == some true))

/-- Substring test on character lists. -/
def containsSub (l sub : Str) : Bool :=
  match l with
  | [] => sub.isEmpty
  | _ :: rest => sub.isPrefixOf l || containsSub rest sub

/-- Example task: anonymous, pending, with output and a numeric
bottomBar option of zero. -/
def exBBZeroTask : RTask := RTask.mk
  { id := 7
    output := "hello".toList
    rendererTaskOptions := { bottomBar := some (Sum.inr 0) } } []

/-- Example task: titled, completed, with output, a boolean bottomBar
option and no persistent output. -/
def exSettledTask : RTask := RTask.mk
  { id := 3
    title := some "done".toList
    state := TState.completed
    output := "bye".toList
    rendererTaskOptions := { bottomBar := some (Sum.inl true) } } []

/-- Example task: failed, titled. -/
def exFailedTask : RTask := RTask.mk
  { id := 1
    title := some "bad".toList
    state := TState.failed } []

/-- Example task: titled, retrying with one retry recorded. -/
def exRetryTask : RTask := RTask.mk
  { id := 2
    title := some "build".toList
    state := TState.retrying
    message := { retry := 1 } } []

/-- Example task: titled, skipped with a reason. -/
def exSkipTask : RTask := RTask.mk
  { id := 4
    title := some "task".toList
    state := TState.skipped
    message := { skip := some "not needed".toList } } []

/-- Example task: titled, pending, an interactive prompt with output. -/
def exPromptTask : RTask := RTask.mk
  { id := 5
    title := some "ask".toList
    output := "answer?".toList
    prompt := true } []

/-- Example task: titled, pending, plain output (inline routing). -/
def exInlineTask : RTask := RTask.mk
  { id := 6
    title := some "work".toList
    output := "progress".toList } []

/-- Example task: anonymous, skipped, with output. -/
def exSkipOutTask : RTask := RTask.mk
  { id := 9
    state := TState.skipped
    output := "zzz".toList } []

/-- Example task: titled, failed, whose error text equals its title. -/
def exErrTitleTask : RTask := RTask.mk
  { id := 8
    title := some "oops".toList
    state := TState.failed
    message := { error := some "oops".toList } } []

/-- Example subtask: titled, pending, no overrides. -/
def exPendingChild : RTask := RTask.mk
  { id := 11
    title := some "child".toList } []

/-- Example task: titled and completed with one pending titled subtask
and no explicit collapse overrides. -/
def exCompletedParent : RTask := RTask.mk
  { id := 10
    title := some "parent".toList
    state := TState.completed } [exPendingChild]

/-- Example task: anonymous and completed with one pending titled
subtask. -/
def exAnonParent : RTask := RTask.mk
  { id := 12
    state := TState.completed } [exPendingChild]

/-- A newline-free list splits into the single part equal to itself. -/
theorem splitEOL_no_newline (l : Str) (h : eolChar ∉ l) : splitEOL l = [l] := by
  induction l with
  | nil => rfl
  | cons c rest ih =>
    have hc : ¬ c = eolChar := fun hc => h (by simp [hc])
    have hr : eolChar ∉ rest := fun hm => h (List.mem_cons_of_mem c hm)
    simp [splitEOL, hc, ih hr]

/-- The split of any list is nonempty. -/
theorem splitEOL_ne_nil (l : Str) : splitEOL l ≠ [] := by
  induction l with
  | nil => simp [splitEOL]
  | cons c rest ih =>
    by_cases hc : c = eolChar
    · simp [splitEOL, hc]
    · simp only [splitEOL, if_neg hc]
      cases hsp : splitEOL rest with
      | nil => simp
      | cons h t => simp

/-- Every part of a split is newline-free. -/
theorem splitEOL_mem_no_newline (l : Str) (p : Str) (hp : p ∈ splitEOL l) : eolChar ∉ p := by
  induction l generalizing p with
  | nil =>
    simp [splitEOL] at hp
    subst hp
    simp
  | cons c rest ih =>
    by_cases hc : c = eolChar
    · simp [splitEOL, hc] at hp
      rcases hp with h | h
      · subst h; simp
      · exact ih p h
    · simp only [splitEOL, if_neg hc] at hp
      cases hsp : splitEOL rest with
      | nil => exact absurd hsp (splitEOL_ne_nil rest)
      | cons hh tt =>
        rw [hsp] at hp
        simp only [List.mem_cons] at hp
        rcases hp with h | h
        · subst h
          intro hmem
          rcases List.mem_cons.mp hmem with h1 | h1
          · exact hc h1.symm
          · exact ih hh (by rw [hsp]; exact List.mem_cons_self hh tt) h1
        · exact ih p (by rw [hsp]; exact List.mem_cons_of_mem hh h)

/-- Splitting after a newline-free part and an explicit newline peels
off that part. -/
theorem splitEOL_append_eol (p r : Str) (hp : eolChar ∉ p) :
    splitEOL (p ++ eolChar :: r) = p :: splitEOL r := by
  induction p with
  | nil => simp [splitEOL]
  | cons c pp ih =>
    have hc : ¬ c = eolChar := fun hc => hp (by simp [hc])
    have hpp : eolChar ∉ pp := fun hm => hp (List.mem_cons_of_mem c hm)
    simp only [List.cons_append, splitEOL, if_neg hc, List.append_eq, ih hpp]

/-- Splitting inverts joining for a nonempty list of newline-free
parts. -/
theorem splitEOL_joinEOL (parts : List Str) (hne : parts ≠ [])
    (hnl : ∀ p ∈ parts, eolChar ∉ p) : splitEOL (joinEOL parts) = parts := by
  induction parts with
  | nil => exact absurd rfl hne
  | cons p rest ih =>
    cases rest with
    | nil => simp [joinEOL, splitEOL_no_newline p (hnl p (by simp))]
    | cons q rr =>
      have hj : joinEOL (p :: q :: rr) = p ++ eolChar :: joinEOL (q :: rr) := rfl
      rw [hj, splitEOL_append_eol p _ (hnl p (by simp)),
        ih (by simp) (fun x hx => hnl x (List.mem_cons_of_mem _ hx))]

/-- Trimming never lengthens a list. -/
theorem trimChars_length_le (l : Str) : (trimChars l).length ≤ l.length := by
  unfold trimChars
  calc (((l.dropWhile isWS).reverse.dropWhile isWS).reverse).length
      = ((l.dropWhile isWS).reverse.dropWhile isWS).length := by simp
    _ ≤ (l.dropWhile isWS).reverse.length := (List.dropWhile_sublist isWS).length_le
    _ = (l.dropWhile isWS).length := by simp
    _ ≤ l.length := (List.dropWhile_sublist isWS).length_le

/-- Trimming only removes characters. -/
theorem trimChars_subset (l : Str) : trimChars l ⊆ l := by
  intro c hc
  unfold trimChars at hc
  rw [List.mem_reverse] at hc
  have h1 := (List.dropWhile_sublist (l := (l.dropWhile isWS).reverse) isWS).subset hc
  rw [List.mem_reverse] at h1
  exact (List.dropWhile_sublist (l := l) isWS).subset h1

/-- A list trimming to nothing holds only whitespace. -/
theorem all_ws_of_trimChars_eq_nil (l : Str) (h : trimChars l = []) :
    ∀ c ∈ l, isWS c := by
  unfold trimChars at h
  rw [List.reverse_eq_nil_iff, List.dropWhile_eq_nil_iff] at h
  intro c hc
  by_cases hws : isWS c
  · exact hws
  · exfalso
    have hsplit := List.takeWhile_append_dropWhile (p := isWS) (l := l)
    have hmem : c ∈ l.takeWhile isWS ++ l.dropWhile isWS := by rw [hsplit]; exact hc
    rcases List.mem_append.mp hmem with h1 | h1
    · exact hws (List.mem_takeWhile_imp h1)
    · exact hws (h c (List.mem_reverse.mpr h1))

/-- A list holding a non-whitespace character does not trim to
nothing. -/
theorem trimChars_ne_nil_of_mem (l : Str) (c : Char) (hc : c ∈ l)
    (hws : isWS c = false) : trimChars l ≠ [] := by
  intro h
  have := all_ws_of_trimChars_eq_nil l h c hc
  rw [hws] at this
  exact Bool.noConfusion this

/-- Indentation of a single newline-free line. -/
theorem indentStr_single (s : Str) (n : Nat) (h : eolChar ∉ s) :
    indentStr s n = if trimChars s = [] then s else List.replicate n ' ' ++ s := by
  unfold indentStr
  rw [splitEOL_no_newline s h]
  by_cases ht : trimChars s = [] <;> simp [joinEOL, ht]

/-- The fuelled chunking always yields at least one chunk. -/
theorem chunksOfAux_ne_nil (fuel w : Nat) (l : Str) : chunksOfAux fuel w l ≠ [] := by
  cases fuel with
  | zero => simp [chunksOfAux]
  | succ n =>
    by_cases h : l.length ≤ w <;> simp [chunksOfAux, h]

/-- With enough fuel, every chunk respects the width. -/
theorem chunksOfAux_length_le (fuel w : Nat) (l : Str) (hw : 1 ≤ w)
    (hfuel : l.length ≤ fuel + w) : ∀ c ∈ chunksOfAux fuel w l, c.length ≤ w := by
  induction fuel generalizing l with
  | zero =>
    intro c hc
    simp [chunksOfAux] at hc
    subst hc
    simpa using hfuel
  | succ n ih =>
    intro c hc
    by_cases hlen : l.length ≤ w
    · simp [chunksOfAux, hlen] at hc
      subst hc
      exact hlen
    · simp only [chunksOfAux, if_neg hlen] at hc
      rcases List.mem_cons.mp hc with h | h
      · subst h
        simp [List.length_take]
      · refine ih (l.drop w) ?_ c h
        simp only [List.length_drop]
        omega

/-- Every chunk draws its characters from the chunked line. -/
theorem chunksOfAux_subset (fuel w : Nat) (l : Str) :
    ∀ c ∈ chunksOfAux fuel w l, c ⊆ l := by
  induction fuel generalizing l with
  | zero =>
    intro c hc
    simp [chunksOfAux] at hc
    subst hc
    exact fun x hx => hx
  | succ n ih =>
    intro c hc
    by_cases hlen : l.length ≤ w
    · simp [chunksOfAux, hlen] at hc
      subst hc
      exact fun x hx => hx
    · simp only [chunksOfAux, if_neg hlen] at hc
      rcases List.mem_cons.mp hc with h | h
      · subst h
        exact List.take_subset w l
      · intro x hx
        exact List.drop_subset w l (ih (l.drop w) c h hx)

/-- Positive-width chunks respect the width. -/
theorem chunksOf_length_le (w : Nat) (l : Str) (hw : 1 ≤ w) :
    ∀ c ∈ chunksOf w l, c.length ≤ w := by
  intro c hc
  unfold chunksOf at hc
  rw [if_neg (by omega)] at hc
  exact chunksOfAux_length_le l.length w l hw (by omega) c hc

/-- Chunking always yields at least one chunk. -/
theorem chunksOf_ne_nil (w : Nat) (l : Str) : chunksOf w l ≠ [] := by
  unfold chunksOf
  by_cases h : w = 0
  · simp [h]
  · rw [if_neg h]
    exact chunksOfAux_ne_nil l.length w l

/-- Chunks draw their characters from the chunked line. -/
theorem chunksOf_subset (w : Nat) (l : Str) : ∀ c ∈ chunksOf w l, c ⊆ l := by
  intro c hc
  unfold chunksOf at hc
  by_cases h : w = 0
  · rw [if_pos h] at hc
    simp at hc
    subst hc
    exact fun x hx => hx
  · rw [if_neg h] at hc
    exact chunksOfAux_subset l.length w l c hc

/-- Every element of an index-aware map arises from an element of the
list at some index. -/
theorem mapWithIndex_mem {α β : Type} (f : Nat → α → β) (l : List α) (y : β)
    (hy : y ∈ mapWithIndex f l) : ∃ i a, a ∈ l ∧ y = f i a := by
  induction l generalizing f with
  | nil => simp [mapWithIndex] at hy
  | cons a as ih =>
    simp only [mapWithIndex, List.mem_cons] at hy
    rcases hy with h | h
    · exact ⟨0, a, by simp, h⟩
    · rcases ih (fun i x => f (i + 1) x) h with ⟨i, b, hb, he⟩
      exact ⟨i + 1, b, by simp [hb], he⟩

/-- C9: for every string whose trimmed content is empty, formatString
produces no rendered line (and no error), regardless of icon, level and
the formatOutput option. -/
theorem formatString_blank_no_line (r : Renderer) (str icon : Str) (level : Int)
    (h : trimChars str = []) : formatString r str icon level = Except.ok none := by
  unfold formatString
  rw [if_pos h]

/-- Witness for C9 at a concrete blank input under an unknown
formatOutput value. -/
theorem formatString_blank_no_line_witness :
    trimChars " ".toList = [] ∧
      formatString { formatOutput := "bogus".toList } " ".toList "x".toList 0 = Except.ok none :=
  ⟨by decide, formatString_blank_no_line { formatOutput := "bogus".toList } " ".toList "x".toList 0 (by decide)⟩

/-- C5 counterexample: with the unknown formatOutput value bogus and the
blank input consisting of one space, formatString raises no error, so an
invalid option does not always throw and the claimed equivalence fails
at this input. -/
theorem formatString_invalid_blank_no_error :
    ({ formatOutput := "bogus".toList } : Renderer).formatOutput ≠ "truncate".toList ∧
      ({ formatOutput := "bogus".toList } : Renderer).formatOutput ≠ "wrap".toList ∧
      formatString { formatOutput := "bogus".toList } " ".toList "x".toList 0 = Except.ok none := by
  refine ⟨by decide, by decide, ?_⟩
  rfl

/-- C5 amended: formatString raises an error exactly when the
formatOutput option is neither truncate nor wrap and the trimmed input
is nonempty; in particular a valid option never throws. -/
theorem formatString_error_iff_invalid_nonblank (r : Renderer) (str icon : Str) (level : Int) :
    (∃ e, formatString r str icon level = Except.error e) ↔
      (¬ r.formatOutput = "truncate".toList ∧ ¬ r.formatOutput = "wrap".toList ∧
        ¬ trimChars str = []) := by
  by_cases h1 : trimChars str = []
  · simp [formatString, h1]
  · by_cases h2 : r.formatOutput = "truncate".toList
    · simp [formatString, h1, h2]
    · by_cases h3 : r.formatOutput = "wrap".toList
      · simp [formatString, h1, h2, h3]
      · simp only [formatString, if_neg h1, if_neg h2, if_neg h3]
        constructor
        · intro _
          exact ⟨h2, h3, h1⟩
        · intro _
          exact ⟨_, rfl⟩

/-- C8: dumpData with the error source yields nothing when the stored
error text equals the title of the task; consequently the secondary
line block of a failed titled task emits no line even with
collapseErrors disabled. -/
theorem dumpData_error_title_none (r : Renderer) (t : RTask) (level : Int)
    (h1 : t.hasTitle = true) (h2 : t.core.message.error = t.core.title) :
    dumpData r t level DumpSource.error = Except.ok none ∧
      (t.hasFailed = true →
        dumpBlock r t level = Except.ok [] ∨ dumpBlock r t level = Except.ok [none]) := by
  have hd : dumpData r t level DumpSource.error = Except.ok none := by
    unfold dumpData
    simp [h1, h2]
  refine ⟨hd, fun hFail => ?_⟩
  have hSkip : t.isSkipped = false := by
    simp only [RTask.hasFailed, decide_eq_true_eq] at hFail
    simp [RTask.isSkipped, hFail]
  unfold dumpBlock
  by_cases hA : (!t.hasSubtasks || !(optShowSubtasks r t)) = true
  · rw [if_pos hA]
    by_cases hB : (t.hasFailed && optCollapseErrors r t == false &&
        (optShowErrorMessage r t || !(optShowSubtasks r t))) = true
    · rw [if_pos hB, hd]
      right
      rfl
    · rw [if_neg hB, if_neg (by simp [hSkip])]
      left
      rfl
  · rw [if_neg hA]
    left
    rfl

/-- Witness for C8 at a concrete failed task whose error text repeats
the title. -/
theorem dumpData_error_title_none_witness :
    exErrTitleTask.hasTitle = true ∧
      dumpData { collapseErrors := false } exErrTitleTask 0 DumpSource.error = Except.ok none ∧
      dumpBlock { collapseErrors := false } exErrTitleTask 0 = Except.ok [none] := by
  have h := dumpData_error_title_none { collapseErrors := false } exErrTitleTask 0
    (by decide) (by decide)
  exact ⟨by decide, h.1, rfl⟩

/-- C4: a titled task in a sibling list with a failure, itself not
failed, with exitOnError not false and neither completed nor skipped, is
rendered as its title with the red small filled square stopped marker. -/
theorem stopped_marker_title_line (r : Renderer) (siblings : List RTask) (t : RTask) (level : Int)
    (h1 : t.hasTitle = true)
    (h2 : (siblings.any fun s => s.hasFailed) = true)
    (h3 : t.hasFailed = false)
    (h4 : t.core.exitOnError ≠ some false)
    (h5 : t.isCompleted = false)
    (h6 : t.isSkipped = false) :
    titleSelect r siblings t level = formatString r t.titleStr "◼".toList level := by
  have he : (t.core.exitOnError == some false) = false := beq_eq_false_iff_ne.mpr h4
  have hstop : stoppedBySibling siblings t = true := by
    simp [stoppedBySibling, h2, h3, h5, h6, he]
  unfold titleSelect
  rw [hstop]
  simp

/-- Witness for C4: a failed sibling ahead of a pending titled task. -/
theorem stopped_marker_title_line_witness :
    exInlineTask.hasTitle = true ∧
      titleSelect {} [exFailedTask, exInlineTask] exInlineTask 0 =
        formatString {} exInlineTask.titleStr "◼".toList 0 :=
  ⟨by decide,
    stopped_marker_title_line {} [exFailedTask, exInlineTask] exInlineTask 0
      (by decide) (by decide) (by decide) (by decide) (by decide) (by decide)⟩

/-- C6 counterexample: a titled retrying task with suffixRetries enabled
whose sibling has failed is rendered with the stopped marker, without
any retry suffix, against the claimed unconditional retry suffix. -/
theorem retry_suffix_preempted :
    exRetryTask.hasTitle = true ∧ exRetryTask.isRetrying = true ∧
      optSuffixRetries {} exRetryTask = true ∧
      titleSelect {} [exFailedTask, exRetryTask] exRetryTask 0 =
        Except.ok (some "◼ build".toList) ∧
      containsSub "◼ build".toList "RETRYING".toList = false := by
  exact ⟨by decide, by decide, by decide, rfl, by decide⟩

/-- C6 amended: for a titled skipped task with collapseSkips the title
line is the skip reason (or the title when no truthy reason is stored or
showSkipMessage is disabled) suffixed with SKIPPED unless suffixSkips is
false; and for a titled retrying task with suffixRetries, provided the
stopped-sibling precedence does not preempt it, the line is the title
suffixed with the retry count. -/
theorem skip_and_retry_title_lines (r : Renderer) (siblings : List RTask) (t : RTask) (level : Int) :
    (t.hasTitle = true → t.isSkipped = true → optCollapseSkips r t = true →
      titleSelect r siblings t level =
        formatString r
          ((if jsTruthy t.core.message.skip = true ∧ optShowSkipMessage r t = true
            then t.core.message.skip.getD [] else t.titleStr) ++
            (if optSuffixSkips r t = true then " [SKIPPED]".toList else []))
          (getSymbol r t false) level) ∧
    (t.hasTitle = true → t.isRetrying = true → optSuffixRetries r t = true →
      stoppedBySibling siblings t = false →
      titleSelect r siblings t level =
        formatString r
          (t.titleStr ++ " [RETRYING-".toList ++
            (toString t.core.message.retry).toList ++ "]".toList)
          (getSymbol r t false) level) := by
  constructor
  · intro h1 h2 h3
    have hstop : stoppedBySibling siblings t = false := by
      simp [stoppedBySibling, h2]
    have hst : t.core.state = TState.skipped := by
      simpa [RTask.isSkipped] using h2
    have hFail : t.hasFailed = false := by simp [RTask.hasFailed, hst]
    unfold titleSelect
    rw [hstop]
    simp only [Bool.not_false, if_true, hFail, Bool.false_and, Bool.false_eq_true, if_false,
      h2, h3, Bool.and_self, if_true]
    by_cases hj : jsTruthy t.core.message.skip = true <;>
      by_cases hm : optShowSkipMessage r t = true <;>
        by_cases hs : optSuffixSkips r t = true <;>
          simp [addSuffixToMessage, hj, hm, hs]
  · intro h1 h2 h3 hstop
    have hst : t.core.state = TState.retrying := by
      simpa [RTask.isRetrying] using h2
    have hFail : t.hasFailed = false := by simp [RTask.hasFailed, hst]
    have hSkip : t.isSkipped = false := by simp [RTask.isSkipped, hst]
    unfold titleSelect
    rw [hstop]
    simp only [Bool.not_false, if_true, hFail, Bool.false_and, Bool.false_eq_true, if_false,
      hSkip, h2, h3, Bool.and_self, if_true]
    simp [addSuffixToMessage]

/-- Appending a fresh entry makes it visible under its own id. -/
theorem lookupBB_append_self (l : List (Nat × BBEntry)) (id : Nat) (e : BBEntry) :
    lookupBB (l ++ [(id, e)]) id = some ((lookupBB l id).getD e) := by
  induction l with
  | nil => simp [lookupBB]
  | cons ke rest ih =>
    by_cases h : ke.1 = id
    · simp [lookupBB, h]
    · simpa [lookupBB, h] using ih

/-- Appending an entry for one id leaves other ids unchanged. -/
theorem lookupBB_append_ne (l : List (Nat × BBEntry)) (id k : Nat) (e : BBEntry)
    (h : k ≠ id) : lookupBB (l ++ [(id, e)]) k = lookupBB l k := by
  have hik : ¬ id = k := fun hc => h hc.symm
  induction l with
  | nil => simp [lookupBB, hik]
  | cons ke rest ih =>
    by_cases hk : ke.1 = k
    · simp [lookupBB, hk]
    · simpa [lookupBB, hk] using ih

/-- Replacing the data of an entry updates exactly that entry. -/
theorem lookupBB_setBBData_self (l : List (Nat × BBEntry)) (id : Nat)
    (d : List (Option Str)) (e : BBEntry) (h : lookupBB l id = some e) :
    lookupBB (setBBData l id d) id = some { e with data := d } := by
  induction l with
  | nil => simp [lookupBB] at h
  | cons ke rest ih =>
    by_cases hk : ke.1 = id
    · rw [lookupBB, if_pos hk] at h
      cases h
      simp [setBBData, lookupBB, hk]
    · rw [lookupBB, if_neg hk] at h
      simpa [setBBData, lookupBB, hk] using ih h

/-- Replacing the data of one entry leaves other ids unchanged. -/
theorem lookupBB_setBBData_ne (l : List (Nat × BBEntry)) (id k : Nat)
    (d : List (Option Str)) (h : k ≠ id) :
    lookupBB (setBBData l id d) k = lookupBB l k := by
  have hik : ¬ id = k := fun hc => h hc.symm
  induction l with
  | nil => simp [setBBData, lookupBB]
  | cons ke rest ih =>
    by_cases hid : ke.1 = id
    · simp [setBBData, lookupBB, hid, hik]
    · by_cases hk : ke.1 = k
      · simp [setBBData, lookupBB, hid, hk, h]
      · simpa [setBBData, lookupBB, hid, hk] using ih

/-- Deleting an entry removes it. -/
theorem lookupBB_eraseBB_self (l : List (Nat × BBEntry)) (id : Nat) :
    lookupBB (eraseBB l id) id = none := by
  induction l with
  | nil => simp [eraseBB, lookupBB]
  | cons ke rest ih =>
    by_cases h : ke.1 = id
    · simpa [eraseBB, h] using ih
    · simpa [eraseBB, lookupBB, h] using ih

/-- Mapping a transformation over the entries commutes with lookup. -/
theorem lookupBB_map (l : List (Nat × BBEntry)) (g : BBEntry → BBEntry) (id : Nat) :
    lookupBB (l.map fun ke => (ke.1, g ke.2)) id = (lookupBB l id).map g := by
  induction l with
  | nil => simp [lookupBB]
  | cons ke rest ih =>
    by_cases h : ke.1 = id
    · simp [lookupBB, h]
    · simpa [lookupBB, h] using ih

/-- Helper equation: the bottom bar branch of the output routing, with
the dumped line given. -/
theorem outputPart_bottom_branch (r : Renderer) (t : RTask) (level : Int) (st : RState)
    (d : Option Str)
    (hout : t.core.output.isEmpty = false)
    (hA : ((t.isPending || t.isRetrying || t.isRollingBack) && t.isPrompt) = false)
    (hB : (isBottomBar t || !t.hasTitle) = true)
    (hd : dumpData r t (-1) DumpSource.output = Except.ok d) :
    outputPart r t level st =
      (let bb := if (lookupBB st.bottomBar t.core.id).isNone then
            st.bottomBar ++ [(t.core.id, { data := [], items := bottomBarItems t })]
          else st.bottomBar
         let entry := (lookupBB bb t.core.id).getD {}
         if !(entry.data.any fun el => ([d] : List (Option Str)).contains el) && !t.isSkipped then
           Except.ok ({ st with bottomBar := setBBData bb t.core.id (entry.data ++ [d]) },
             ([] : List (Option Str)))
         else Except.ok ({ st with bottomBar := bb }, [])) := by
  unfold outputPart
  rw [if_pos (by simp [hout]), if_neg (by simp [hA]), if_pos hB, hd]

/-- C3: live output of an enabled task is routed to exactly one region.
With output present, an active prompt task fills the prompt bar and
touches nothing else; otherwise a bottom bar or anonymous task goes to
the bottom bar region (its entry exists afterwards, other ids are
untouched, the prompt bar is untouched and no inline element is
emitted); otherwise the region state is untouched and an inline element
can appear only while the task is active or has persistent output. -/
theorem output_routing_exactly_one_region (r : Renderer) (t : RTask) (level : Int)
    (st st2 : RState) (elems : List (Option Str))
    (hout : t.core.output.isEmpty = false)
    (hok : outputPart r t level st = Except.ok (st2, elems)) :
    (((t.isPending || t.isRetrying || t.isRollingBack) && t.isPrompt) = true →
        st2.promptBar = some t.core.output ∧ st2.bottomBar = st.bottomBar ∧ elems = []) ∧
    (((t.isPending || t.isRetrying || t.isRollingBack) && t.isPrompt) = false →
      (isBottomBar t || !t.hasTitle) = true →
        st2.promptBar = st.promptBar ∧ elems = [] ∧
          (lookupBB st2.bottomBar t.core.id).isSome = true ∧
          (∀ k, k ≠ t.core.id → lookupBB st2.bottomBar k = lookupBB st.bottomBar k)) ∧
    (((t.isPending || t.isRetrying || t.isRollingBack) && t.isPrompt) = false →
      (isBottomBar t || !t.hasTitle) = false →
        st2 = st ∧
          (elems ≠ [] →
            (t.isPending || t.isRetrying || t.isRollingBack || hasPersistentOutput t) = true)) := by
  by_cases hA : ((t.isPending || t.isRetrying || t.isRollingBack) && t.isPrompt) = true
  · unfold outputPart at hok
    rw [if_pos (by simp [hout]), if_pos hA] at hok
    simp only [Except.ok.injEq, Prod.mk.injEq] at hok
    obtain ⟨h1, h2⟩ := hok
    refine ⟨fun _ => ?_, fun hA' _ => ?_, fun hA' _ => ?_⟩
    · subst h1
      exact ⟨rfl, rfl, h2.symm⟩
    · simp [hA] at hA'
    · simp [hA] at hA'
  · have hA0 : ((t.isPending || t.isRetrying || t.isRollingBack) && t.isPrompt) = false :=
      Bool.eq_false_iff.mpr hA
    by_cases hB : (isBottomBar t || !t.hasTitle) = true
    · cases hd : dumpData r t (-1) DumpSource.output with
      | error e =>
        unfold outputPart at hok
        rw [if_pos (by simp [hout]), if_neg (by simp [hA0]), if_pos hB, hd] at hok
        simp at hok
      | ok d =>
        rw [outputPart_bottom_branch r t level st d hout hA0 hB hd] at hok
        refine ⟨fun hA' => ?_, fun _ _ => ?_, fun _ hB' => ?_⟩
        · simp [hA0] at hA'
        · by_cases hCreate : (lookupBB st.bottomBar t.core.id).isNone = true
          · simp only [hCreate, if_true] at hok
            have hself := lookupBB_append_self st.bottomBar t.core.id
              { data := [], items := bottomBarItems t }
            have hnone : lookupBB st.bottomBar t.core.id = none :=
              Option.isNone_iff_eq_none.mp hCreate
            rw [hnone] at hself
            split at hok
            · simp only [Except.ok.injEq, Prod.mk.injEq] at hok
              rw [← hok.1]
              refine ⟨rfl, hok.2.symm, ?_, fun k hk => ?_⟩
              · rw [lookupBB_setBBData_self _ _ _ _ hself]
                rfl
              · rw [lookupBB_setBBData_ne _ _ _ _ hk, lookupBB_append_ne _ _ _ _ hk]
            · simp only [Except.ok.injEq, Prod.mk.injEq] at hok
              rw [← hok.1]
              refine ⟨rfl, hok.2.symm, ?_, fun k hk => ?_⟩
              · rw [hself]
                rfl
              · rw [lookupBB_append_ne _ _ _ _ hk]
          · simp only [hCreate, if_false, Bool.false_eq_true] at hok
            have hsome : (lookupBB st.bottomBar t.core.id).isSome = true := by
              cases hl : lookupBB st.bottomBar t.core.id with
              | none => rw [hl] at hCreate; simp at hCreate
              | some e => simp
            obtain ⟨e0, he0⟩ := Option.isSome_iff_exists.mp hsome
            rw [he0] at hok
            split at hok
            · simp only [Except.ok.injEq, Prod.mk.injEq] at hok
              rw [← hok.1]
              refine ⟨rfl, hok.2.symm, ?_, fun k hk => ?_⟩
              · rw [lookupBB_setBBData_self _ _ _ _ he0]
                rfl
              · rw [lookupBB_setBBData_ne _ _ _ _ hk]
            · simp only [Except.ok.injEq, Prod.mk.injEq] at hok
              rw [← hok.1]
              exact ⟨rfl, hok.2.symm, by rw [he0]; rfl, fun k hk => rfl⟩
        · simp [hB] at hB'
    · have hB0 : (isBottomBar t || !t.hasTitle) = false := Bool.eq_false_iff.mpr hB
      unfold outputPart at hok
      rw [if_pos (by simp [hout]), if_neg (by simp [hA0]), if_neg (by simp [hB0])] at hok
      refine ⟨fun hA' => ?_, fun _ hB' => ?_, fun _ _ => ?_⟩
      · simp [hA0] at hA'
      · simp [hB0] at hB'
      · by_cases hC : (t.isPending || t.isRetrying || t.isRollingBack || hasPersistentOutput t) = true
        · rw [if_pos hC] at hok
          cases hd : dumpData r t level DumpSource.output with
          | error e => rw [hd] at hok; simp at hok
          | ok d =>
            rw [hd] at hok
            simp only [Except.ok.injEq, Prod.mk.injEq] at hok
            exact ⟨hok.1.symm, fun _ => hC⟩
        · rw [if_neg hC] at hok
          simp only [Except.ok.injEq, Prod.mk.injEq] at hok
          refine ⟨hok.1.symm, fun hne => ?_⟩
          exact absurd hok.2.symm hne

/-- The duplicate check of the bottom bar branch reads as membership of
the new line in the stored lines. -/
theorem any_singleton_mem (l : List (Option Str)) (d : Option Str) :
    ((l.any fun el => ([d] : List (Option Str)).contains el) = true) ↔ d ∈ l := by
  induction l with
  | nil => simp
  | cons a as ih =>
    simp only [List.any_cons, Bool.or_eq_true, ih, List.mem_cons]
    constructor
    · rintro (h | h)
      · left
        have ha : a ∈ ([d] : List (Option Str)) := by
          simpa [List.contains] using h
        have : a = d := by simpa using ha
        exact this.symm
      · right
        exact h
    · rintro (h | h)
      · left
        simp [List.contains, h]
      · right
        exact h


/-- C10: in the bottom bar branch of the output routing, with the entry
list and the current entry given by their defining equations, output of
a skipped task is never added to the buffer, a rendered line already
present in the buffer of the task is never appended a second time, and
a fresh line of a non-skipped task is appended exactly once at the
end. -/
theorem bottom_bar_dedup_and_skip (r : Renderer) (t : RTask) (level : Int)
    (st st2 : RState) (elems : List (Option Str)) (d : Option Str)
    (bb : List (Nat × BBEntry)) (entry : BBEntry)
    (hout : t.core.output.isEmpty = false)
    (hA : ((t.isPending || t.isRetrying || t.isRollingBack) && t.isPrompt) = false)
    (hB : (isBottomBar t || !t.hasTitle) = true)
    (hd : dumpData r t (-1) DumpSource.output = Except.ok d)
    (hok : outputPart r t level st = Except.ok (st2, elems))
    (hbbdef : bb = if (lookupBB st.bottomBar t.core.id).isNone then
        st.bottomBar ++ [(t.core.id, { data := [], items := bottomBarItems t })]
      else st.bottomBar)
    (hentrydef : entry = (lookupBB bb t.core.id).getD {}) :
    (t.isSkipped = true → lookupBB st2.bottomBar t.core.id = some entry) ∧
      (d ∈ entry.data → lookupBB st2.bottomBar t.core.id = some entry) ∧
      (t.isSkipped = false → d ∉ entry.data →
        lookupBB st2.bottomBar t.core.id = some { entry with data := entry.data ++ [d] }) := by
  rw [outputPart_bottom_branch r t level st d hout hA hB hd] at hok
  by_cases hCreate : (lookupBB st.bottomBar t.core.id).isNone = true
  · have hnone : lookupBB st.bottomBar t.core.id = none :=
      Option.isNone_iff_eq_none.mp hCreate
    have hbbval : bb = st.bottomBar ++ [(t.core.id, { data := [], items := bottomBarItems t })] := by
      rw [hbbdef, if_pos hCreate]
    have hself : lookupBB bb t.core.id = some { data := [], items := bottomBarItems t } := by
      rw [hbbval, lookupBB_append_self, hnone]
      rfl
    have hentry : entry = { data := [], items := bottomBarItems t } := by
      rw [hentrydef, hself]
      rfl
    simp only [hCreate, if_true] at hok
    rw [← hbbval, hself] at hok
    simp only [Option.getD_some, List.any_nil, Bool.not_false, Bool.true_and,
      List.nil_append] at hok
    by_cases hsk : t.isSkipped = true
    · rw [hsk] at hok
      simp only [Bool.not_true, Bool.false_eq_true, if_false, Except.ok.injEq,
        Prod.mk.injEq] at hok
      rw [← hok.1]
      refine ⟨fun _ => ?_, fun _ => ?_, fun hsk2 _ => ?_⟩
      · rw [hself, hentry]
      · rw [hself, hentry]
      · rw [hsk] at hsk2
        exact Bool.noConfusion hsk2
    · have hsk0 : t.isSkipped = false := Bool.eq_false_iff.mpr hsk
      rw [hsk0] at hok
      simp only [Bool.not_false, if_true, Except.ok.injEq, Prod.mk.injEq] at hok
      rw [← hok.1]
      refine ⟨fun hsk2 => ?_, fun hmem => ?_, fun _ _ => ?_⟩
      · rw [hsk0] at hsk2
        exact Bool.noConfusion hsk2
      · rw [hentry] at hmem
        simp at hmem
      · rw [lookupBB_setBBData_self _ _ _ _ hself, hentry]
        simp
  · have hsome : (lookupBB st.bottomBar t.core.id).isSome = true := by
      cases hl : lookupBB st.bottomBar t.core.id with
      | none => rw [hl] at hCreate; simp at hCreate
      | some e => simp
    obtain ⟨e0, he0⟩ := Option.isSome_iff_exists.mp hsome
    have hbbval : bb = st.bottomBar := by rw [hbbdef, if_neg hCreate]
    have hself : lookupBB bb t.core.id = some e0 := by rw [hbbval, he0]
    have hentry : entry = e0 := by
      rw [hentrydef, hself]
      rfl
    simp only [hCreate, if_false, Bool.false_eq_true] at hok
    rw [← hbbval, hself] at hok
    simp only [Option.getD_some] at hok
    split at hok
    · rename_i hcond
      simp only [Except.ok.injEq, Prod.mk.injEq] at hok
      rw [← hok.1]
      simp only [Bool.and_eq_true, Bool.not_eq_true'] at hcond
      refine ⟨fun hsk2 => ?_, fun hmem => ?_, fun _ _ => ?_⟩
      · rw [hcond.2] at hsk2
        exact Bool.noConfusion hsk2
      · exfalso
        rw [hentry] at hmem
        have := (any_singleton_mem e0.data d).mpr hmem
        rw [hcond.1] at this
        exact Bool.noConfusion this
      · rw [lookupBB_setBBData_self _ _ _ _ hself, hentry]
    · rename_i hcond
      simp only [Except.ok.injEq, Prod.mk.injEq] at hok
      rw [← hok.1]
      refine ⟨fun _ => ?_, fun _ => ?_, fun hsk2 hmem => ?_⟩
      · rw [hself, hentry]
      · rw [hself, hentry]
      · exfalso
        apply hcond
        rw [hentry] at hmem
        have hany : (e0.data.any fun el => ([d] : List (Option Str)).contains el) = false := by
          cases hx : e0.data.any fun el => ([d] : List (Option Str)).contains el with
          | false => rfl
          | true => exact absurd ((any_singleton_mem e0.data d).mp hx) hmem
        rw [hany, hsk2]
        rfl

/-- Lookup commutes with the in-place trimming of renderBottomBar. -/
theorem lookupBB_slice (l : List (Nat × BBEntry)) (id : Nat) :
    lookupBB (l.map fun ke => (ke.1, { ke.2 with data := jsSliceNegArg ke.2.data ke.2.items })) id =
      (lookupBB l id).map fun e => { e with data := jsSliceNegArg e.data e.items } := by
  induction l with
  | nil => simp [lookupBB]
  | cons ke rest ih =>
    by_cases h : ke.1 = id
    · simp [lookupBB, h]
    · simpa [lookupBB, h] using ih

/-- A positive item budget bounds the sliced data length. -/
theorem jsSliceNegArg_length_pos (data : List (Option Str)) (n : Int) (hn : 0 < n) :
    ((jsSliceNegArg data (some n)).length : Int) ≤ n := by
  simp only [jsSliceNegArg]
  rw [if_pos hn]
  simp only [List.length_drop]
  omega

/-- After renderBottomBar, every entry with a positive item budget holds
at most that many lines. -/
theorem renderBottomBar_cap (st : RState) (id : Nat) (e : BBEntry) (n : Int)
    (h : lookupBB (renderBottomBar st).2.bottomBar id = some e)
    (hi : e.items = some n) (hn : 0 < n) : ((e.data).length : Int) ≤ n := by
  unfold renderBottomBar at h
  by_cases hemp : st.bottomBar.isEmpty = true
  · rw [if_pos hemp] at h
    have hnil : st.bottomBar = [] := by
      cases hb : st.bottomBar with
      | nil => rfl
      | cons x xs => rw [hb] at hemp; simp at hemp
    rw [hnil] at h
    simp [lookupBB] at h
  · rw [if_neg hemp] at h
    simp only [] at h
    rw [lookupBB_slice] at h
    cases hl : lookupBB st.bottomBar id with
    | none => rw [hl] at h; simp at h
    | some e0 =>
      rw [hl] at h
      simp only [Option.map_some'] at h
      have he : e = { e0 with data := jsSliceNegArg e0.data e0.items } := by
        cases h
        rfl
      have hit : e0.items = some n := by
        rw [he] at hi
        exact hi
      rw [he]
      simp only []
      rw [hit]
      exact jsSliceNegArg_length_pos e0.data n hn

/-- A settled enabled task clears the prompt bar and, without persistent
output, deletes its bottom bar entry. -/
theorem settle_clears_regions (r : Renderer) (siblings : List RTask) (t : RTask) (level : Int)
    (st : RState) (out : List (Option Str)) (st2 : RState)
    (hen : t.isEnabled = true) (hset : isSettled t = true)
    (hok : renderTaskEntry r siblings t level st = Except.ok (out, st2)) :
    st2.promptBar = none ∧
      (hasPersistentOutput t = false → lookupBB st2.bottomBar t.core.id = none) := by
  unfold renderTaskEntry at hok
  rw [if_neg (by simp [hen])] at hok
  split at hok
  · exact absurd hok (by simp)
  · split at hok
    · exact absurd hok (by simp)
    · split at hok
      · exact absurd hok (by simp)
      · split at hok
        · exact absurd hok (by simp)
        · simp only [hset, if_true, Except.ok.injEq, Prod.mk.injEq] at hok
          obtain ⟨h1, h2⟩ := hok
          rw [← h2]
          constructor
          · rfl
          · intro hpers
            simp [settleActions, hpers, lookupBB_eraseBB_self]

/-- A fresh bottom bar entry is created with the item budget read from
the bottomBar task option. -/
theorem outputPart_creates_entry (r : Renderer) (t : RTask) (level : Int)
    (st st2 : RState) (elems : List (Option Str)) (d : Option Str)
    (hout : t.core.output.isEmpty = false)
    (hA : ((t.isPending || t.isRetrying || t.isRollingBack) && t.isPrompt) = false)
    (hB : (isBottomBar t || !t.hasTitle) = true)
    (hd : dumpData r t (-1) DumpSource.output = Except.ok d)
    (hok : outputPart r t level st = Except.ok (st2, elems))
    (hfresh : lookupBB st.bottomBar t.core.id = none) :
    ∃ e2, lookupBB st2.bottomBar t.core.id = some e2 ∧ e2.items = bottomBarItems t := by
  rw [outputPart_bottom_branch r t level st d hout hA hB hd] at hok
  have hCreate : (lookupBB st.bottomBar t.core.id).isNone = true := by
    rw [hfresh]
    rfl
  have hself : lookupBB (st.bottomBar ++ [(t.core.id, { data := [], items := bottomBarItems t })])
      t.core.id = some { data := [], items := bottomBarItems t } := by
    rw [lookupBB_append_self, hfresh]
    rfl
  simp only [hCreate, if_true] at hok
  rw [hself] at hok
  simp only [Option.getD_some, List.any_nil, Bool.not_false, Bool.true_and,
    List.nil_append] at hok
  split at hok
  · simp only [Except.ok.injEq, Prod.mk.injEq] at hok
    rw [← hok.1]
    exact ⟨_, lookupBB_setBBData_self _ _ _ _ hself, rfl⟩
  · simp only [Except.ok.injEq, Prod.mk.injEq] at hok
    rw [← hok.1]
    exact ⟨_, hself, rfl⟩

/-- C2 amended: after every full render pass every bottom bar entry with
a positive stored item budget retains at most that many data lines (the
budget being recorded as one for a boolean bottomBar option and as the
number itself for a numeric one, so the cap is effective for booleans
and positive counts, while zero or negative counts disable trimming);
and whenever an enabled task settles, the prompt bar is cleared and,
unless persistent output is requested, its bottom bar entry is
deleted. -/
theorem bottom_bar_cap_and_eviction :
    (∀ (r : Renderer) (b1 b2 b3 : Bool) (ts : List RTask) (st : RState) (out : Str)
        (st2 : RState) (id : Nat) (e : BBEntry) (n : Int),
        createRender r b1 b2 b3 ts st = Except.ok (out, st2) →
        lookupBB st2.bottomBar id = some e → e.items = some n → 0 < n →
        ((e.data).length : Int) ≤ n) ∧
    (∀ (r : Renderer) (t : RTask) (level : Int) (st st2 : RState)
        (elems : List (Option Str)) (d : Option Str),
        t.core.output.isEmpty = false →
        ((t.isPending || t.isRetrying || t.isRollingBack) && t.isPrompt) = false →
        (isBottomBar t || !t.hasTitle) = true →
        dumpData r t (-1) DumpSource.output = Except.ok d →
        outputPart r t level st = Except.ok (st2, elems) →
        lookupBB st.bottomBar t.core.id = none →
        ∃ e2, lookupBB st2.bottomBar t.core.id = some e2 ∧
          (∀ b, t.core.rendererTaskOptions.bottomBar = some (Sum.inl b) → e2.items = some 1) ∧
          (∀ m, t.core.rendererTaskOptions.bottomBar = some (Sum.inr m) → e2.items = some m)) ∧
    (∀ (r : Renderer) (siblings : List RTask) (t : RTask) (level : Int) (st : RState)
        (out : List (Option Str)) (st2 : RState),
        t.isEnabled = true → isSettled t = true →
        renderTaskEntry r siblings t level st = Except.ok (out, st2) →
        st2.promptBar = none ∧
          (hasPersistentOutput t = false → lookupBB st2.bottomBar t.core.id = none)) := by
  refine ⟨?_, ?_, ?_⟩
  · intro r b1 b2 b3 ts st out st2 id e n hok hl hi hn
    unfold createRender at hok
    cases hml : multiLineRenderer r ts 0 st with
    | error e2 =>
      rw [hml] at hok
      simp at hok
    | ok v =>
      obtain ⟨rt, st1⟩ := v
      rw [hml] at hok
      simp only [Except.ok.injEq, Prod.mk.injEq] at hok
      rw [← hok.2] at hl
      exact renderBottomBar_cap st1 id e n hl hi hn
  · intro r t level st st2 elems d hout hA hB hd hok hfresh
    obtain ⟨e2, he2, hit⟩ :=
      outputPart_creates_entry r t level st st2 elems d hout hA hB hd hok hfresh
    refine ⟨e2, he2, ?_, ?_⟩
    · intro b hb
      rw [hit]
      simp [bottomBarItems, hb]
    · intro m hm
      rw [hit]
      simp [bottomBarItems, hm]
  · intro r siblings t level st out st2 hen hset hok
    exact settle_clears_regions r siblings t level st out st2 hen hset hok

/-- C2 counterexample: an anonymous pending task with the numeric
bottomBar option zero; after one full render pass its entry stores the
item budget zero yet retains one data line, exceeding the claimed cap
of zero retained lines. -/
theorem bottom_bar_zero_budget_violation :
    createRender {} true true true [exBBZeroTask] {} =
      Except.ok ("› hello".toList,
        { promptBar := none,
          bottomBar := [(7, { data := [some "› hello".toList], items := some 0 })] }) ∧
      exBBZeroTask.core.rendererTaskOptions.bottomBar = some (Sum.inr 0) ∧
      ([some "› hello".toList] : List (Option Str)).length = 1 := by
  refine ⟨?_, rfl, rfl⟩
  simp [createRender, multiLineRenderer, renderLoop, renderTaskEntry]
  rfl

/-- Witness for C2 at concrete states: a trimmed entry, a freshly
created entry, and a settled task clearing its regions. -/
theorem bottom_bar_cap_and_eviction_witness :
    ((([some "b".toList, some "c".toList] : List (Option Str)).length : Int) ≤ 2) ∧
      (∃ e2, lookupBB ({ promptBar := none, bottomBar := [(7, { data := [some "› hello".toList], items := some 0 })] } : RState).bottomBar 7 = some e2 ∧
        (∀ b, exBBZeroTask.core.rendererTaskOptions.bottomBar = some (Sum.inl b) → e2.items = some 1) ∧
        (∀ m, exBBZeroTask.core.rendererTaskOptions.bottomBar = some (Sum.inr m) → e2.items = some m)) ∧
      (({ promptBar := none, bottomBar := [] } : RState).promptBar = none ∧
        (hasPersistentOutput exSettledTask = false →
          lookupBB ({ promptBar := none, bottomBar := [] } : RState).bottomBar 3 = none)) := by
  have h := bottom_bar_cap_and_eviction
  refine ⟨?_, ?_, ?_⟩
  · exact h.1 {} true true true ([] : List RTask)
      { promptBar := none, bottomBar := [(1, { data := [some "a".toList, some "b".toList, some "c".toList], items := some 2 })] }
      "b\nc".toList
      { promptBar := none, bottomBar := [(1, { data := [some "b".toList, some "c".toList], items := some 2 })] }
      1 { data := [some "b".toList, some "c".toList], items := some 2 } 2
      (by simp [createRender, multiLineRenderer, renderLoop]; exact ⟨rfl, rfl⟩) rfl rfl (by decide)
  · exact h.2.1 {} exBBZeroTask 0 {}
      { promptBar := none, bottomBar := [(7, { data := [some "› hello".toList], items := some 0 })] }
      [] (some "› hello".toList) rfl rfl rfl rfl rfl rfl
  · exact h.2.2 {} [] exSettledTask 0
      { promptBar := some "p".toList, bottomBar := [(3, { data := [some "old".toList], items := some 1 })] }
      [some "✔ done".toList] { promptBar := none, bottomBar := [] }
      (by decide) (by decide)
      (by simp [renderTaskEntry]; rfl)

/-- Witness for C3 at three concrete tasks: an active prompt task, an
anonymous bottom bar task, and a titled inline task. -/
theorem output_routing_witness :
    (∃ st2 elems, outputPart {} exPromptTask 0 {} = Except.ok (st2, elems) ∧
        st2.promptBar = some exPromptTask.core.output ∧ elems = []) ∧
      (∃ st2 elems, outputPart {} exSkipOutTask 0 {} = Except.ok (st2, elems) ∧
        (lookupBB st2.bottomBar 9).isSome = true ∧ elems = []) ∧
      (∃ st2 elems, outputPart {} exInlineTask 0 {} = Except.ok (st2, elems) ∧
        st2 = ({} : RState)) := by
  refine ⟨⟨_, _, rfl, ?_⟩, ⟨_, _, rfl, ?_⟩, ⟨_, _, rfl, ?_⟩⟩
  · have h := (output_routing_exactly_one_region {} exPromptTask 0 {} _ _ rfl rfl).1 (by decide)
    exact ⟨h.1, h.2.2⟩
  · have h := (output_routing_exactly_one_region {} exSkipOutTask 0 {} _ _ rfl rfl).2.1
      (by decide) (by decide)
    exact ⟨h.2.2.1, h.2.1⟩
  · have h := (output_routing_exactly_one_region {} exInlineTask 0 {} _ _ rfl rfl).2.2
      (by decide) (by decide)
    exact h.1

/-- Witness for C6: the skip example of the specification and a lone
retrying task. -/
theorem skip_and_retry_title_lines_witness :
    titleSelect {} [] exSkipTask 0 = Except.ok (some "↓ not needed [SKIPPED]".toList) ∧
      titleSelect {} [] exRetryTask 0 = Except.ok (some "build [RETRYING-1]".toList) := by
  constructor
  · exact ((skip_and_retry_title_lines {} [] exSkipTask 0).1
      (by decide) (by decide) (by decide)).trans (by rfl)
  · exact ((skip_and_retry_title_lines {} [] exRetryTask 0).2
      (by decide) (by decide) (by decide) (by decide)).trans (by rfl)

/-- Witness for C10: output of a skipped anonymous task is not stored,
and a line already in the buffer is not appended again. -/
theorem bottom_bar_dedup_and_skip_witness :
    lookupBB ({ promptBar := none, bottomBar := [(9, { data := [], items := none })] } : RState).bottomBar 9 =
        some ({ data := [], items := none } : BBEntry) ∧
      lookupBB ({ promptBar := none, bottomBar := [(7, { data := [some "› hello".toList], items := some 0 })] } : RState).bottomBar 7 =
        some ({ data := [some "› hello".toList], items := some 0 } : BBEntry) := by
  constructor
  · exact (bottom_bar_dedup_and_skip {} exSkipOutTask 0 {}
      { promptBar := none, bottomBar := [(9, { data := [], items := none })] } []
      (some "↓ zzz".toList) [(9, { data := [], items := none })] { data := [], items := none }
      rfl (by decide) (by decide) rfl rfl rfl rfl).1 rfl
  · exact (bottom_bar_dedup_and_skip {} exBBZeroTask 0
      { promptBar := none, bottomBar := [(7, { data := [some "› hello".toList], items := some 0 })] }
      { promptBar := none, bottomBar := [(7, { data := [some "› hello".toList], items := some 0 })] }
      [] (some "› hello".toList)
      [(7, { data := [some "› hello".toList], items := some 0 })]
      { data := [some "› hello".toList], items := some 0 }
      rfl (by decide) (by decide) rfl rfl rfl rfl).2.1 (by simp)

/-- C7 counterexample: a completed titled parent with the global
collapse option false and one plain pending subtask is recursed into by
the source although the claimed condition list rejects it; and an
anonymous completed parent recurses without increasing the level. -/
theorem subtask_recursion_claim_gap :
    shouldRenderSubtasks { collapse := false } exCompletedParent = true ∧
      claimSubtaskCondition { collapse := false } exCompletedParent = false ∧
      shouldRenderSubtasks {} exAnonParent = true ∧
      subtaskRenderLevel exAnonParent 0 = 0 := by
  exact ⟨by decide, by decide, by decide, by decide⟩

/-- C7 amended: the renderer recurses into subtasks exactly when the
claimed condition holds or the task is completed with its resolved
collapse option false and no subtask opting into collapsing; the indent
grows by one level only for titled tasks and stays unchanged for
anonymous tasks. -/
theorem subtask_recursion_condition (r : Renderer) (t : RTask) (level : Int) :
    shouldRenderSubtasks r t = claimSubtaskConditionAmended r t ∧
      (t.hasTitle = true → subtaskRenderLevel t level = level + 1) ∧
      (t.hasTitle = false → subtaskRenderLevel t level = level) := by
  refine ⟨?_, ?_, ?_⟩
  · rw [Bool.eq_iff_iff]
    simp only [shouldRenderSubtasks, claimSubtaskConditionAmended, claimSubtaskCondition,
      Bool.and_eq_true, Bool.or_eq_true]
    tauto
  · intro h
    simp [subtaskRenderLevel, h]
  · intro h
    simp [subtaskRenderLevel, h]

/-- Witness for C7 at the completed parent example. -/
theorem subtask_recursion_condition_witness :
    shouldRenderSubtasks { collapse := false } exCompletedParent =
        claimSubtaskConditionAmended { collapse := false } exCompletedParent ∧
      subtaskRenderLevel exCompletedParent 0 = 1 :=
  ⟨(subtask_recursion_condition { collapse := false } exCompletedParent 0).1,
    (subtask_recursion_condition { collapse := false } exCompletedParent 0).2.1 (by decide)⟩

/-- The removeEmptyLines filtering keeps a singleton nonempty line. -/
theorem filter_singleton_keep (b : Bool) (x : Str) (hx : x.isEmpty = false) :
    (if b = true then [x].filter (fun s => !s.isEmpty) else [x]) = [x] := by
  by_cases hb : b = true <;> simp [hb, hx]

/-- Truncate mode, short single-line input: the icon-prefixed string is
returned unmodified apart from the level indentation. -/
theorem formatString_truncate_short (r : Renderer) (str icon : Str) (level : Int)
    (hfmt : r.formatOutput = "truncate".toList)
    (hnl : eolChar ∉ icon ++ [' '] ++ str)
    (htrimS : trimChars (icon ++ [' '] ++ str) = icon ++ [' '] ++ str)
    (htrimstr : ¬ trimChars str = [])
    (hlen : ((icon ++ [' '] ++ str).length : Int) <
      (effColumns r : Int) - level * (r.indentation : Int) - 2) :
    formatString r str icon level =
      Except.ok (some (List.replicate (level * (r.indentation : Int)).toNat ' ' ++
        (icon ++ [' '] ++ str))) := by
  have hS1 : 1 ≤ ((icon ++ [' '] ++ str).length : Int) := by
    simp [List.length_append]
    omega
  have hSne : (icon ++ [' '] ++ str).isEmpty = false := by
    cases hS : icon ++ [' '] ++ str with
    | nil => rw [hS] at hS1; simp at hS1
    | cons a as => rfl
  simp only [formatString, if_neg htrimstr, if_pos hfmt]
  rw [splitEOL_no_newline _ hnl]
  simp only [mapWithIndex, indentMultilineOutput]
  rw [if_neg (lt_irrefl 0)]
  rw [htrimS]
  have hct : cliTruncate (icon ++ [' '] ++ str)
      ((effColumns r : Int) - level * (r.indentation : Int) - 2) = icon ++ [' '] ++ str := by
    unfold cliTruncate
    rw [if_neg (by omega), if_neg (by omega), if_pos (le_of_lt hlen)]
  rw [hct]
  rw [filter_singleton_keep r.removeEmptyLines _ hSne]
  have hj : joinEOL [icon ++ [' '] ++ str] = icon ++ [' '] ++ str := rfl
  rw [hj, indentStr_single _ _ hnl, if_neg (by rw [htrimS]; intro h; rw [h] at hSne; simp at hSne)]

/-- Truncate mode, long single-line input: the output content is cut to
exactly the available width. -/
theorem formatString_truncate_long (r : Renderer) (str icon : Str) (level : Int)
    (hfmt : r.formatOutput = "truncate".toList)
    (hnl : eolChar ∉ icon ++ [' '] ++ str)
    (htrimS : trimChars (icon ++ [' '] ++ str) = icon ++ [' '] ++ str)
    (htrimstr : ¬ trimChars str = [])
    (hcols : 1 ≤ (effColumns r : Int) - level * (r.indentation : Int) - 2)
    (hlen : (effColumns r : Int) - level * (r.indentation : Int) - 2 <
      ((icon ++ [' '] ++ str).length : Int)) :
    ∃ res, formatString r str icon level =
        Except.ok (some (List.replicate (level * (r.indentation : Int)).toNat ' ' ++ res)) ∧
      (res.length : Int) = (effColumns r : Int) - level * (r.indentation : Int) - 2 := by
  have hwsdots : isWS '…' = false := by decide
  have hdmem : '…' ∈ cliTruncate (icon ++ [' '] ++ str)
      ((effColumns r : Int) - level * (r.indentation : Int) - 2) := by
    unfold cliTruncate
    rw [if_neg (by omega)]
    by_cases h1 : (effColumns r : Int) - level * (r.indentation : Int) - 2 = 1
    · rw [if_pos h1]
      simp
    · rw [if_neg h1, if_neg (by omega)]
      simp
  have hctlen : ((cliTruncate (icon ++ [' '] ++ str)
      ((effColumns r : Int) - level * (r.indentation : Int) - 2)).length : Int) =
      (effColumns r : Int) - level * (r.indentation : Int) - 2 := by
    unfold cliTruncate
    rw [if_neg (by omega)]
    by_cases h1 : (effColumns r : Int) - level * (r.indentation : Int) - 2 = 1
    · rw [if_pos h1, h1]
      rfl
    · rw [if_neg h1, if_neg (by omega)]
      have hSlen : (icon ++ [' '] ++ str).length = icon.length + 1 + str.length := by
        simp [List.length_append]
        omega
      simp only [List.length_append, List.length_take, List.length_singleton]
      omega
  have hctnl : eolChar ∉ cliTruncate (icon ++ [' '] ++ str)
      ((effColumns r : Int) - level * (r.indentation : Int) - 2) := by
    unfold cliTruncate
    rw [if_neg (by omega)]
    by_cases h1 : (effColumns r : Int) - level * (r.indentation : Int) - 2 = 1
    · rw [if_pos h1]
      decide
    · rw [if_neg h1, if_neg (by omega)]
      intro hmem
      rcases List.mem_append.mp hmem with h | h
      · exact hnl (List.take_subset _ _ h)
      · exact absurd h (by decide)
  have hcttrim : trimChars (cliTruncate (icon ++ [' '] ++ str)
      ((effColumns r : Int) - level * (r.indentation : Int) - 2)) ≠ [] :=
    trimChars_ne_nil_of_mem _ '…' hdmem hwsdots
  have hctne : (cliTruncate (icon ++ [' '] ++ str)
      ((effColumns r : Int) - level * (r.indentation : Int) - 2)).isEmpty = false := by
    cases hc : cliTruncate (icon ++ [' '] ++ str)
        ((effColumns r : Int) - level * (r.indentation : Int) - 2) with
    | nil => rw [hc] at hdmem; simp at hdmem
    | cons a as => rfl
  refine ⟨cliTruncate (icon ++ [' '] ++ str)
    ((effColumns r : Int) - level * (r.indentation : Int) - 2), ?_, hctlen⟩
  simp only [formatString, if_neg htrimstr, if_pos hfmt]
  rw [splitEOL_no_newline _ hnl]
  simp only [mapWithIndex, indentMultilineOutput]
  rw [if_neg (lt_irrefl 0)]
  rw [htrimS]
  rw [filter_singleton_keep r.removeEmptyLines _ hctne]
  have hj : joinEOL [cliTruncate (icon ++ [' '] ++ str)
      ((effColumns r : Int) - level * (r.indentation : Int) - 2)] =
      cliTruncate (icon ++ [' '] ++ str)
        ((effColumns r : Int) - level * (r.indentation : Int) - 2) := rfl
  rw [hj, indentStr_single _ _ hctnl, if_neg hcttrim]

/-- Bound for the wrap pipeline: every line of the indented join of the
wrapped, trimmed, continuation-indented and optionally filtered chunks
stays within the outer indentation plus the two-space continuation
indent plus the wrap width. -/
theorem wrap_pipeline_bound (S : Str) (cols : Int) (K : Nat) (rem : Bool)
    (hcols : 1 ≤ cols) :
    ∀ line ∈ splitEOL (indentStr (joinEOL
      (if rem = true then (mapWithIndex (fun i s => indentMultilineOutput s i)
          (splitEOL (cliWrap S cols))).filter (fun s => !s.isEmpty)
        else mapWithIndex (fun i s => indentMultilineOutput s i) (splitEOL (cliWrap S cols)))) K),
      line.length ≤ K + 2 + cols.toNat := by
  have hw1 : 1 ≤ cols.toNat := by omega
  have hch_ne : (splitEOL S).flatMap (chunksOf cols.toNat) ≠ [] := by
    cases hsp : splitEOL S with
    | nil => exact absurd hsp (splitEOL_ne_nil S)
    | cons p ps =>
      simp only [List.flatMap_cons]
      intro hc
      rcases List.append_eq_nil.mp hc with ⟨h1, _⟩
      exact chunksOf_ne_nil cols.toNat p h1
  have hch_mem : ∀ c ∈ (splitEOL S).flatMap (chunksOf cols.toNat),
      c.length ≤ cols.toNat ∧ eolChar ∉ c := by
    intro c hc
    rcases List.mem_flatMap.mp hc with ⟨p, hp, hcp⟩
    refine ⟨chunksOf_length_le cols.toNat p hw1 c hcp, ?_⟩
    intro hmem
    exact splitEOL_mem_no_newline S p hp (chunksOf_subset cols.toNat p c hcp hmem)
  have hsplitW : splitEOL (cliWrap S cols) = (splitEOL S).flatMap (chunksOf cols.toNat) := by
    unfold cliWrap
    exact splitEOL_joinEOL _ hch_ne (fun p hp => (hch_mem p hp).2)
  intro line hline
  rw [hsplitW] at hline
  have hparsedFacts : ∀ p ∈ mapWithIndex (fun i s => indentMultilineOutput s i)
      ((splitEOL S).flatMap (chunksOf cols.toNat)), p.length ≤ 2 + cols.toNat ∧ eolChar ∉ p := by
    intro p hp
    rcases mapWithIndex_mem _ _ p hp with ⟨i, c, hc, hpc⟩
    obtain ⟨hclen, hcnl⟩ := hch_mem c hc
    have htl : (trimChars c).length ≤ cols.toNat := le_trans (trimChars_length_le c) hclen
    have htnl : eolChar ∉ trimChars c := fun hm => hcnl (trimChars_subset c hm)
    rw [hpc]
    unfold indentMultilineOutput
    by_cases hi : 0 < i
    · rw [if_pos hi, indentStr_single _ _ htnl]
      by_cases htc : trimChars (trimChars c) = []
      · rw [if_pos htc]
        exact ⟨by omega, htnl⟩
      · rw [if_neg htc]
        constructor
        · simp only [List.length_append, List.length_replicate]
          omega
        · intro hm
          rcases List.mem_append.mp hm with h | h
          · have := List.eq_of_mem_replicate h
            exact absurd this (by decide)
          · exact htnl h
    · rw [if_neg hi]
      exact ⟨by omega, htnl⟩
  have hfilFacts : ∀ p ∈ (if rem = true then (mapWithIndex (fun i s => indentMultilineOutput s i)
      ((splitEOL S).flatMap (chunksOf cols.toNat))).filter (fun s => !s.isEmpty)
      else mapWithIndex (fun i s => indentMultilineOutput s i)
        ((splitEOL S).flatMap (chunksOf cols.toNat))),
      p.length ≤ 2 + cols.toNat ∧ eolChar ∉ p := by
    intro p hp
    by_cases hrem : rem = true
    · rw [if_pos hrem] at hp
      exact hparsedFacts p (List.mem_of_mem_filter hp)
    · rw [if_neg hrem] at hp
      exact hparsedFacts p hp
  revert hline
  generalize hF : (if rem = true then (mapWithIndex (fun i s => indentMultilineOutput s i)
      ((splitEOL S).flatMap (chunksOf cols.toNat))).filter (fun s => !s.isEmpty)
      else mapWithIndex (fun i s => indentMultilineOutput s i)
        ((splitEOL S).flatMap (chunksOf cols.toNat))) = filtered
  rw [hF] at hfilFacts
  intro hline
  unfold indentStr at hline
  by_cases hfe : filtered = []
  · rw [hfe] at hline
    have hred : splitEOL (joinEOL (((splitEOL (joinEOL ([] : List Str))).map
        fun l => if trimChars l = [] then l else List.replicate K ' ' ++ l))) = [[]] := by
      rfl
    rw [hred] at hline
    simp at hline
    rw [hline]
    simp
  · rw [splitEOL_joinEOL filtered hfe (fun p hp => (hfilFacts p hp).2)] at hline
    have hmapped : ∀ q ∈ filtered.map
        (fun l => if trimChars l = [] then l else List.replicate K ' ' ++ l),
        q.length ≤ K + 2 + cols.toNat ∧ eolChar ∉ q := by
      intro q hq
      rcases List.mem_map.mp hq with ⟨p, hp, hqp⟩
      obtain ⟨hplen, hpnl⟩ := hfilFacts p hp
      rw [← hqp]
      by_cases htp : trimChars p = []
      · rw [if_pos htp]
        exact ⟨by omega, hpnl⟩
      · rw [if_neg htp]
        constructor
        · simp only [List.length_append, List.length_replicate]
          omega
        · intro hm
          rcases List.mem_append.mp hm with h | h
          · have := List.eq_of_mem_replicate h
            exact absurd this (by decide)
          · exact hpnl h
    have hmne : filtered.map
        (fun l => if trimChars l = [] then l else List.replicate K ' ' ++ l) ≠ [] := by
      intro hm
      exact hfe (List.map_eq_nil_iff.mp hm)
    rw [splitEOL_joinEOL _ hmne (fun q hq => (hmapped q hq).2)] at hline
    exact (hmapped line hline).1

/-- Wrap mode: formatString succeeds and no output line exceeds the
terminal column count. -/
theorem formatString_wrap_lines (r : Renderer) (str icon : Str) (level : Int)
    (hfmt : r.formatOutput = "wrap".toList)
    (htrimstr : ¬ trimChars str = [])
    (hlev : 0 ≤ level)
    (hcols : 1 ≤ (effColumns r : Int) - level * (r.indentation : Int) - 2) :
    ∃ out, formatString r str icon level = Except.ok (some out) ∧
      ∀ line ∈ splitEOL out, (line.length : Int) ≤ (effColumns r : Int) := by
  have hfmtT : ¬ r.formatOutput = "truncate".toList := by
    rw [hfmt]
    decide
  have heval : formatString r str icon level =
      Except.ok (some (indentStr (joinEOL
        (if r.removeEmptyLines = true then (mapWithIndex (fun i s => indentMultilineOutput s i)
            (splitEOL (cliWrap (icon ++ [' '] ++ str)
              ((effColumns r : Int) - level * (r.indentation : Int) - 2)))).filter
            (fun s => !s.isEmpty)
          else mapWithIndex (fun i s => indentMultilineOutput s i)
            (splitEOL (cliWrap (icon ++ [' '] ++ str)
              ((effColumns r : Int) - level * (r.indentation : Int) - 2)))))
        (level * (r.indentation : Int)).toNat)) := by
    simp only [formatString, if_neg htrimstr, if_neg hfmtT, if_pos hfmt]
  refine ⟨_, heval, ?_⟩
  intro line hline
  have hb := wrap_pipeline_bound (icon ++ [' '] ++ str)
    ((effColumns r : Int) - level * (r.indentation : Int) - 2)
    ((level * (r.indentation : Int)).toNat) r.removeEmptyLines hcols line hline
  have hM : 0 ≤ level * (r.indentation : Int) := mul_nonneg hlev (Int.natCast_nonneg _)
  omega

/-- C1 amended: in truncate mode a single-line input without surrounding
whitespace whose icon-prefixed form is shorter than the available width
(terminal columns minus level indentation minus two, when positive) is
returned unmodified apart from the icon prefix and level indentation,
and a longer one is cut to exactly the available width; in wrap mode
(nonnegative level, positive available width) no output line exceeds
the terminal column count, that is the available width plus the level
indentation plus the two-space continuation indent. -/
theorem formatString_truncate_and_wrap (r : Renderer) (str icon : Str) (level : Int) :
    (r.formatOutput = "truncate".toList → eolChar ∉ icon ++ [' '] ++ str →
      trimChars (icon ++ [' '] ++ str) = icon ++ [' '] ++ str → ¬ trimChars str = [] →
      ((icon ++ [' '] ++ str).length : Int) <
          (effColumns r : Int) - level * (r.indentation : Int) - 2 →
      formatString r str icon level =
        Except.ok (some (List.replicate (level * (r.indentation : Int)).toNat ' ' ++
          (icon ++ [' '] ++ str)))) ∧
    (r.formatOutput = "truncate".toList → eolChar ∉ icon ++ [' '] ++ str →
      trimChars (icon ++ [' '] ++ str) = icon ++ [' '] ++ str → ¬ trimChars str = [] →
      1 ≤ (effColumns r : Int) - level * (r.indentation : Int) - 2 →
      (effColumns r : Int) - level * (r.indentation : Int) - 2 <
          ((icon ++ [' '] ++ str).length : Int) →
      ∃ res, formatString r str icon level =
          Except.ok (some (List.replicate (level * (r.indentation : Int)).toNat ' ' ++ res)) ∧
        (res.length : Int) = (effColumns r : Int) - level * (r.indentation : Int) - 2) ∧
    (r.formatOutput = "wrap".toList → ¬ trimChars str = [] → 0 ≤ level →
      1 ≤ (effColumns r : Int) - level * (r.indentation : Int) - 2 →
      ∃ out, formatString r str icon level = Except.ok (some out) ∧
        ∀ line ∈ splitEOL out, (line.length : Int) ≤ (effColumns r : Int)) :=
  ⟨fun h1 h2 h3 h4 h5 => formatString_truncate_short r str icon level h1 h2 h3 h4 h5,
    fun h1 h2 h3 h4 h5 h6 => formatString_truncate_long r str icon level h1 h2 h3 h4 h5 h6,
    fun h1 h2 h3 h4 => formatString_wrap_lines r str icon level h1 h2 h3 h4⟩

/-- C1 counterexample: four concrete failures of the claim as stated.
A trailing space is trimmed away, so the input is modified beyond the
icon prefix; a multi-line input has its continuation line trimmed and
indented by two; at indent level ten with ten terminal columns the
available width is negative and the output is empty instead of exactly
that width; and in wrap mode the continuation line has ten characters,
exceeding the available width of eight. -/
theorem formatString_claim_failures :
    (formatString {} "a ".toList "x".toList 0 = Except.ok (some "x a".toList) ∧
      "x a".toList ≠ List.replicate 0 ' ' ++ ("x".toList ++ [' '] ++ "a ".toList)) ∧
    (formatString {} "a\nb".toList "x".toList 0 = Except.ok (some "x a\n  b".toList) ∧
      "x a\n  b".toList ≠ List.replicate 0 ' ' ++ ("x".toList ++ [' '] ++ "a\nb".toList)) ∧
    (formatString { stdoutColumns := 10 } (List.replicate 20 'a') "x".toList 10 =
        Except.ok (some []) ∧
      (effColumns { stdoutColumns := 10 } : Int) - 10 * 2 - 2 = -12) ∧
    (formatString { stdoutColumns := 10, formatOutput := "wrap".toList }
        (List.replicate 20 'a') "x".toList 0 =
        Except.ok (some "x aaaaaa\n  aaaaaaaa\n  aaaaaa".toList) ∧
      "  aaaaaaaa".toList ∈ splitEOL "x aaaaaa\n  aaaaaaaa\n  aaaaaa".toList ∧
      ("  aaaaaaaa".toList.length : Int) = 10 ∧
      (effColumns { stdoutColumns := 10, formatOutput := "wrap".toList } : Int) - 0 * 2 - 2 = 8) := by
  refine ⟨⟨rfl, by decide⟩, ⟨rfl, by decide⟩, ⟨rfl, by decide⟩, ⟨rfl, by decide, by decide, by decide⟩⟩

/-- Witness for C1 at concrete inputs: a short line kept intact, a long
line cut to the available width, and a wrapped long line bounded by the
terminal width. -/
theorem formatString_truncate_and_wrap_witness :
    formatString {} "hello".toList "x".toList 0 =
        Except.ok (some (List.replicate ((0 : Int) * (({} : Renderer).indentation : Int)).toNat ' ' ++
          ("x".toList ++ [' '] ++ "hello".toList))) ∧
      (∃ res, formatString { stdoutColumns := 10 } (List.replicate 20 'a') "x".toList 0 =
          Except.ok (some (List.replicate ((0 : Int) * (({ stdoutColumns := 10 } : Renderer).indentation : Int)).toNat ' ' ++ res)) ∧
        (res.length : Int) =
          (effColumns { stdoutColumns := 10 } : Int) -
            0 * (({ stdoutColumns := 10 } : Renderer).indentation : Int) - 2) ∧
      (∃ out, formatString { stdoutColumns := 10, formatOutput := "wrap".toList }
            (List.replicate 20 'a') "x".toList 0 = Except.ok (some out) ∧
        ∀ line ∈ splitEOL out,
          (line.length : Int) ≤
            (effColumns { stdoutColumns := 10, formatOutput := "wrap".toList } : Int)) := by
  refine ⟨?_, ?_, ?_⟩
  · exact (formatString_truncate_and_wrap {} "hello".toList "x".toList 0).1
      rfl (by decide) (by decide) (by decide) (by decide)
  · exact (formatString_truncate_and_wrap { stdoutColumns := 10 }
      (List.replicate 20 'a') "x".toList 0).2.1
      rfl (by decide) (by decide) (by decide) (by decide) (by decide)
  · exact (formatString_truncate_and_wrap { stdoutColumns := 10, formatOutput := "wrap".toList }
      (List.replicate 20 'a') "x".toList 0).2.2
      rfl (by decide) (by decide) (by decide)
